import Mathlib

/-!
Verification development for the klighd-vscode proxy-view geometry engine
(`proxy-view-bezier.ts`, `proxy-view.tsx`, `proxy-view-options.ts`).

The source computes, for every diagram update, the points where curved edges
cross the viewport rectangle, and places proxy markers there.  The numerical
code (JavaScript `number`) is embedded over exact real arithmetic `ℝ`; the
purely order/field-based geometry helpers are stated over an arbitrary
`LinearOrderedField` so that concrete counterexamples can be evaluated over
`ℚ` by `decide`.

Functions of the repository that are imported from files not present in the
source snapshot (`isInBounds`, `asBounds` from `proxy-view-util`,
`getCanvasBounds` from `skgraph-utils`) are modelled from the specification;
their doc comments start with `Modelled from the spec:`.
-/

namespace Klighd

/-- 2-D point `{x, y}` (`type Point = { x: number; y: number }`). -/
structure Pt (α : Type) where
  x : α
  y : α
deriving DecidableEq, Repr

/-- Axis-aligned rectangle `{x, y, width, height}` (sprotty `Bounds`). -/
structure Bounds (α : Type) where
  x : α
  y : α
  width : α
  height : α
deriving DecidableEq, Repr

/-- `type Line = { p1: Point; p2: Point }`. -/
structure Line (α : Type) where
  p1 : Pt α
  p2 : Pt α

/-- JavaScript `Math.atan2(y, x)`, embedded as the argument of the complex
number `x + y·i`. -/
noncomputable def atan2 (y x : ℝ) : ℝ := Complex.arg ⟨x, y⟩

/-- `align(points, line)` from `proxy-view-bezier.ts` (lines 11–22): rotate and
translate the points so that `line` becomes the x-axis. -/
noncomputable def align (points : List (Pt ℝ)) (line : Line ℝ) : List (Pt ℝ) :=
  let tx := line.p1.x
  let ty := line.p1.y
  let a := -(atan2 (line.p2.y - ty) (line.p2.x - tx))
  points.map fun v =>
    ⟨(v.x - tx) * Real.cos a - (v.y - ty) * Real.sin a,
     (v.x - tx) * Real.sin a + (v.y - ty) * Real.cos a⟩

/-- `crt(v)` (lines 24–26): real cube root, preserving sign for negative
input. -/
noncomputable def crt (v : ℝ) : ℝ :=
  if v < 0 then -((-v) ^ ((1 : ℝ) / 3)) else v ^ ((1 : ℝ) / 3)

/-- The Bernstein-basis cubic coefficients extracted inside `roots`
(lines 39–47): `d·t³ + a·t² + b·t + c` built from the y-components of the
aligned control points. -/
noncomputable def cubicCoeffsOf (points : List (Pt ℝ)) (line : Line ℝ) :
    ℝ × ℝ × ℝ × ℝ :=
  let aligned := align points line
  let pa := (aligned.getD 0 ⟨0, 0⟩).y
  let pb := (aligned.getD 1 ⟨0, 0⟩).y
  let pc := (aligned.getD 2 ⟨0, 0⟩).y
  let pd := (aligned.getD 3 ⟨0, 0⟩).y
  (-pa + 3 * pb - 3 * pc + pd, 3 * pa - 6 * pb + 3 * pc, -3 * pa + 3 * pb, pa)

/-- The case analysis of `roots` (lines 49–102) before the final `[0,1]`
filter: linear / quadratic / depressed-cubic solutions of
`d·t³ + a·t² + b·t + c = 0`.  In the source each branch applies
`.filter(reduce)` to its own list; here the filter is applied once by
`roots`, which is the same list. -/
noncomputable def solveCubicAll (d a b c : ℝ) : List ℝ :=
  if d = 0 then
    if a = 0 then
      if b = 0 then []
      else [-c / b]
    else
      let q := Real.sqrt (b * b - 4 * a * c)
      let a2 := 2 * a
      [(q - b) / a2, (-b - q) / a2]
  else
    let a1 := a / d
    let b1 := b / d
    let c1 := c / d
    let p := (3 * b1 - a1 * a1) / 3
    let p3 := p / 3
    let q := (2 * a1 * a1 * a1 - 9 * a1 * b1 + 27 * c1) / 27
    let q2 := q / 2
    let disc := q2 * q2 + p3 * p3 * p3
    if disc < 0 then
      let mp3 := -p / 3
      let mp33 := mp3 * mp3 * mp3
      let r := Real.sqrt mp33
      let t := -q / (2 * r)
      let cosphi := if t < -1 then -1 else if t > 1 then 1 else t
      let phi := Real.arccos cosphi
      let crtr := crt r
      let t1 := 2 * crtr
      [t1 * Real.cos (phi / 3) - a1 / 3,
       t1 * Real.cos ((phi + 2 * Real.pi) / 3) - a1 / 3,
       t1 * Real.cos ((phi + 2 * 2 * Real.pi) / 3) - a1 / 3]
    else if disc = 0 then
      let u1 := if q2 < 0 then crt (-q2) else -(crt q2)
      [2 * u1 - a1 / 3, -u1 - a1 / 3]
    else
      let sd := Real.sqrt disc
      let u1 := crt (-q2 + sd)
      let v1 := crt (q2 + sd)
      [u1 - v1 - a1 / 3]

/-- The `reduce` predicate of `roots` (lines 34–36): keep parameters in
`[0, 1]`. -/
noncomputable def reduceB (t : ℝ) : Bool := decide (0 ≤ t ∧ t ≤ 1)

/-- `roots(points, line)` (lines 30–103): all real roots in `[0,1]` of the
cubic formed by the y-components of the aligned control points. -/
noncomputable def roots (points : List (Pt ℝ)) (line : Line ℝ) : List ℝ :=
  match cubicCoeffsOf points line with
  | (d, a, b, c) => (solveCubicAll d a b c).filter reduceB

/-- `computeCubic(t, p)` (lines 105–118): standard cubic Bezier evaluation. -/
def computeCubic {α : Type} [LinearOrderedField α] (t : α) (p : List (Pt α)) :
    Pt α :=
  let mt := 1 - t
  let a := mt * mt * mt
  let b := mt * mt * t * 3
  let c := mt * t * t * 3
  let d := t * t * t
  ⟨a * (p.getD 0 ⟨0, 0⟩).x + b * (p.getD 1 ⟨0, 0⟩).x +
     c * (p.getD 2 ⟨0, 0⟩).x + d * (p.getD 3 ⟨0, 0⟩).x,
   a * (p.getD 0 ⟨0, 0⟩).y + b * (p.getD 1 ⟨0, 0⟩).y +
     c * (p.getD 2 ⟨0, 0⟩).y + d * (p.getD 3 ⟨0, 0⟩).y⟩

/-- `getValueAt(value, points, axis)` (lines 120–138): solve for all curve
parameters where the coordinate on `axis` equals `value`, pairing each root
with its point on the original (pre-alignment) curve. -/
noncomputable def getValueAt (value : ℝ) (points : List (Pt ℝ)) (axis : ℕ) :
    List (Pt ℝ × ℝ) :=
  let xcoords := points.map fun p => (⟨p.y - value, p.x - value⟩ : Pt ℝ)
  let line : Line ℝ :=
    if axis = 1 then ⟨⟨0, 0⟩, ⟨0, 1⟩⟩ else ⟨⟨0, 0⟩, ⟨1, 0⟩⟩
  (roots xcoords line).map fun t => (computeCubic t points, t)

/-- Coordinate selection used to state axis-dependent properties: axis `0`
reads `x`, axis `1` reads `y` (matching `getValueAt`'s axis convention). -/
def axisCoord {α : Type} (p : Pt α) (axis : ℕ) : α :=
  if axis = 1 then p.y else p.x

section Geometry

variable {α : Type} [LinearOrderedField α]

/-- Modelled from the spec: `isInBounds` (from `proxy-view-util`, not in the
source snapshot) is the standard axis-aligned bounding-box overlap test, with
inclusive comparisons. -/
def isInBounds (b1 b2 : Bounds α) : Prop :=
  b1.x ≤ b2.x + b2.width ∧ b2.x ≤ b1.x + b1.width ∧
    b1.y ≤ b2.y + b2.height ∧ b2.y ≤ b1.y + b1.height

instance (b1 b2 : Bounds α) : Decidable (isInBounds b1 b2) := by
  unfold isInBounds
  infer_instance

/-- Modelled from the spec: `asBounds` (from `proxy-view-util`, not in the
source snapshot) views a point as a zero-size rectangle, so that
`isInBounds (asBounds p) b` tests whether `p` lies inside `b`. -/
def asBounds (p : Pt α) : Bounds α := ⟨p.x, p.y, 0, 0⟩

/-- `ProxyView.isCrossingBounds` (`proxy-view-bezier.ts` lines 882–890, same
in `proxy-view.tsx` 542–550): overlap, but neither rectangle fully contains
the other. -/
def isCrossingBounds (b1 b2 : Bounds α) : Prop :=
  isInBounds b1 b2
    ∧ ¬((b1.x ≤ b2.x ∧ b1.x + b1.width ≥ b2.x + b2.width) ∧
        (b1.y ≤ b2.y ∧ b1.y + b1.height ≥ b2.y + b2.height))
    ∧ ¬((b1.x ≥ b2.x ∧ b1.x + b1.width ≤ b2.x + b2.width) ∧
        (b1.y ≥ b2.y ∧ b1.y + b1.height ≤ b2.y + b2.height))

instance (b1 b2 : Bounds α) : Decidable (isCrossingBounds b1 b2) := by
  unfold isCrossingBounds
  infer_instance

/-- JavaScript `Math.min(...l)` for the non-empty lists the source feeds it
(on the empty list JS yields `Infinity`; the embedding returns `0` there and
no claim uses that case). -/
def minD (l : List α) : α :=
  match l with
  | [] => 0
  | h :: t => t.foldl min h

/-- JavaScript `Math.max(...l)`, as in `minD`. -/
def maxD (l : List α) : α :=
  match l with
  | [] => 0
  | h :: t => t.foldl max h

/-- `getBoundsFromPoints(points)` (lines 141–151): coordinate-wise min/max
bounding box. -/
def getBoundsFromPoints (points : List (Pt α)) : Bounds α :=
  let xmin := minD (points.map (·.x))
  let ymin := minD (points.map (·.y))
  let xmax := maxD (points.map (·.x))
  let ymax := maxD (points.map (·.y))
  ⟨xmin, ymin, xmax - xmin, ymax - ymin⟩

end Geometry

/-- `enum Sides` (lines 153–158). -/
inductive Sides where
  | N
  | E
  | S
  | W
deriving DecidableEq, Repr

/-- `enum Anchors` (lines 160–165). -/
inductive Anchors where
  | towardsMiddle
  | center
  | towardsEdge
  | topLeft
deriving DecidableEq, Repr

section DataModel

variable {α : Type} [LinearOrderedField α]

/-- The read-only snapshot of a graph node that the pipeline reads: its id
(for depth lookup), natural bounds, and the synthesis-provided proxy rendering
override bounds, when present (`PROXY_RENDERING_PROPERTY` with
`klighd.lsp.calculated.bounds`). -/
structure NodeRef (α : Type) where
  id : ℕ
  bounds : Bounds α
  proxyRendering : Option (Bounds α)
deriving DecidableEq, Repr

/-- An `SKEdge` as read by the pipeline: its routing points (already in
absolute coordinates, see `getCanvasBounds`), bounding box, and optional
source/target nodes (`instanceof SKNode` checks in the source become
`Option`). -/
structure SKEdge (α : Type) where
  routingPoints : List (Pt α)
  bounds : Bounds α
  source : Option (NodeRef α)
  target : Option (NodeRef α)
deriving DecidableEq, Repr

/-- An `SKNode` of the visible tree.  The source keeps nodes and edges in one
`children` array; the embedding splits them into `childNodes` and
`childEdges` (the relative order of edges versus sub-containers in the
collected edge list is the only difference, and no claim depends on it). -/
inductive SKNode (α : Type) where
  | mk (id : ℕ) (bounds : Bounds α) (absoluteX absoluteY : α)
      (childNodes : List (SKNode α)) (childEdges : List (SKEdge α))

def SKNode.id {α : Type} : SKNode α → ℕ
  | .mk i _ _ _ _ _ => i

def SKNode.bounds {α : Type} : SKNode α → Bounds α
  | .mk _ b _ _ _ _ => b

def SKNode.absoluteX {α : Type} : SKNode α → α
  | .mk _ _ ax _ _ _ => ax

def SKNode.absoluteY {α : Type} : SKNode α → α
  | .mk _ _ _ ay _ _ => ay

def SKNode.childNodes {α : Type} : SKNode α → List (SKNode α)
  | .mk _ _ _ _ cn _ => cn

def SKNode.childEdges {α : Type} : SKNode α → List (SKEdge α)
  | .mk _ _ _ _ _ ce => ce

/-- `child.children.length` of the source (nodes and edges together). -/
def SKNode.childCount {α : Type} (n : SKNode α) : ℕ :=
  n.childNodes.length + n.childEdges.length

/-- `interface CrossingPoint` (lines 168–178).  The source object also keeps
the root parameter `t` from the `{...cp}` spread (the TypeScript interface
omits it but the runtime object carries it); `section` is renamed
`sectionNr` (`section` is a Lean keyword). -/
structure CrossingPoint (α : Type) where
  point : Pt α
  t : α
  side : Sides
  incoming : Bool
  sectionNr : ℕ
  proxyPoint : Pt α
  node : Option (NodeRef α)
  nodeBounds : Bounds α
  anchor : Anchors
deriving DecidableEq, Repr

/-- `interface Crossing` (lines 180–185). -/
structure Crossing (α : Type) where
  edge : SKEdge α
  pointBounds : List (Bounds α)
  bezierPoints : List (List (Pt α))
  crossingPoints : List (CrossingPoint α)
deriving DecidableEq, Repr

/-- The sidebar options the pipeline reads (`updateOptions`,
`proxy-view-options.ts`): `ProxyViewSize` (as a fraction),
`ProxyViewOriginalNodeScale`, `ProxyViewCapScaleToOne`,
`ProxyViewUseSynthesisProxyRendering`. -/
structure Config (α : Type) where
  sizePercentage : α
  originalNodeScale : Bool
  capScaleToOne : Bool
  useSynthesisProxyRendering : Bool

/-- A viewport rectangle plus zoom (`Canvas` of `proxy-view-util`): the CRF
canvas used by the crossing pipeline. -/
structure Canvas (α : Type) where
  x : α
  y : α
  width : α
  height : α
  zoom : α

def Canvas.toBounds (c : Canvas α) : Bounds α := ⟨c.x, c.y, c.width, c.height⟩

/-- Modelled from the spec: `getCanvasBounds` (from `skgraph-utils`, not in
the source snapshot) returns an element's bounding box in absolute canvas
coordinates.  The embedding takes edge geometry as already absolute, so the
route offset `getCanvasBounds(edge) - edge.bounds` computed in `getCrossings`
is zero and the routing points are used unshifted. -/
def getCanvasBounds (e : SKEdge α) : Bounds α := e.bounds

/-- `transformWidthHeight` (lines 579–593): proxy size and scale from the
node bounds, the canvas and the sidebar options. -/
def transformWidthHeight (cfg : Config α) (proxyBounds : Bounds α)
    (canvas : Canvas α) : α × α × α :=
  let size := min canvas.width canvas.height * cfg.sizePercentage
  let proxyWidthScale := size / proxyBounds.width
  let proxyHeightScale := size / proxyBounds.height
  let scale0 := if cfg.originalNodeScale then canvas.zoom
    else min proxyWidthScale proxyHeightScale
  let scale := if cfg.capScaleToOne then min 1 scale0 else scale0
  (proxyBounds.width * scale, proxyBounds.height * scale, scale)

/-- `getAnchorOffsets(bounds, side, anchor)` (lines 744–780): the
`(Anchor, Side)` offset table. -/
def getAnchorOffsets (bounds : Bounds α) (side : Sides) (anchor : Anchors) :
    α × α :=
  if anchor = Anchors.towardsMiddle then
    if side = Sides.N then (bounds.width * (1 / 2), bounds.height)
    else if side = Sides.E then (0, bounds.height * (1 / 2))
    else if side = Sides.S then (bounds.width * (1 / 2), 0)
    else (bounds.width, bounds.height * (1 / 2))
  else if anchor = Anchors.center then
    (bounds.width * (1 / 2), bounds.height * (1 / 2))
  else if anchor = Anchors.towardsEdge then
    if side = Sides.N then (bounds.width * (1 / 2), 0)
    else if side = Sides.E then (bounds.width, bounds.height * (1 / 2))
    else if side = Sides.S then (bounds.width * (1 / 2), bounds.height)
    else (0, bounds.height * (1 / 2))
  else (0, 0)

/-- `applyAnchors(crossings, canvas)` (lines 566–577): subtract the anchor
offset from each crossing point's `proxyPoint` and mark it `topLeft`.  The
source mutates in place; the embedding maps to fresh values. -/
def applyAnchors (cfg : Config α) (canvas : Canvas α)
    (crossings : List (Crossing α)) : List (Crossing α) :=
  crossings.map fun crossing =>
    { crossing with crossingPoints := crossing.crossingPoints.map fun cp =>
        let pwph := transformWidthHeight cfg cp.nodeBounds canvas
        let bounds : Bounds α := ⟨0, 0, pwph.1, pwph.2.1⟩
        let off := getAnchorOffsets bounds cp.side cp.anchor
        { cp with
            proxyPoint := ⟨cp.proxyPoint.x - off.1, cp.proxyPoint.y - off.2⟩,
            anchor := Anchors.topLeft } }

/-- `getSynthesisProxyRenderingSingle` (lines 928–952).  The
`ctx`/`getKRendering` property lookup is modelled by the `proxyRendering`
field holding the override's pre-computed bounds when the synthesis provides
one; otherwise the node's natural bounds are used. -/
def getSynthesisProxyRenderingSingle (cfg : Config α) (node : NodeRef α) :
    NodeRef α × Bounds α :=
  match node.proxyRendering with
  | some b =>
    if cfg.useSynthesisProxyRendering then (node, b) else (node, node.bounds)
  | none => (node, node.bounds)

/-- `getPossibleEdges(currRoot, canvasCRF)` (lines 624–645): collect edges
whose bounding box crosses the viewport; descend into child containers that
have children. -/
def getPossibleEdges : SKNode α → Bounds α → List (SKEdge α)
  | SKNode.mk _ _ _ _ childNodes childEdges, canvas =>
    (childEdges.filter fun e =>
        decide (isCrossingBounds (getCanvasBounds e) canvas))
      ++ (childNodes.attach.flatMap fun c =>
            if 0 < c.1.childCount then getPossibleEdges c.1 canvas else [])
termination_by n _ => sizeOf n
decreasing_by
  simp_wf
  have := List.sizeOf_lt_of_mem c.2
  omega

/-- The breadth-first `while` loop of `getTreeDepths` (lines 542–554): the
current row followed by the rows of all its children. -/
def treeRows : List (SKNode α) → List (List (SKNode α))
  | [] => []
  | n :: rest =>
    (n :: rest) :: treeRows ((n :: rest).flatMap SKNode.childNodes)
termination_by l => sizeOf l
decreasing_by
  have happend : ∀ l1 l2 : List (SKNode α),
      sizeOf (l1 ++ l2) + 1 = sizeOf l1 + sizeOf l2 := by
    intro l1 l2
    induction l1 with
    | nil =>
      simp only [List.nil_append, List.nil.sizeOf_spec]
      omega
    | cons a t ih =>
      simp only [List.cons_append, List.cons.sizeOf_spec]
      omega
  have hchild : ∀ m : SKNode α, sizeOf (SKNode.childNodes m) < sizeOf m := by
    intro m
    cases m
    simp [SKNode.childNodes]
    omega
  have hflat : ∀ l : List (SKNode α),
      sizeOf (l.flatMap SKNode.childNodes) + l.length ≤ sizeOf l := by
    intro l
    induction l with
    | nil => simp [List.flatMap]
    | cons a t ih =>
      have h1 := hchild a
      have h2 := happend (SKNode.childNodes a) (t.flatMap SKNode.childNodes)
      simp only [List.flatMap_cons, List.cons.sizeOf_spec, List.length_cons]
      omega
  have := hflat (n :: rest)
  simp only [List.length_cons] at this
  omega

/-- `getTreeDepths(currRoot)` (lines 538–556): nodes partitioned into
breadth-first levels. -/
def getTreeDepths (root : SKNode α) : List (List (SKNode α)) :=
  treeRows [root]

/-- Models `getDepth(node, root)` (lines 558–564).  The source walks runtime
`parent` references; in the value tree the depth of an in-tree node is the
breadth-first level at which its id occurs. -/
def depthIdx (root : SKNode α) (i : ℕ) : ℕ :=
  (getTreeDepths root).findIdx fun row => row.any fun nd => nd.id == i

/-- The marker rectangle tested by `filterOverlappingWithNodes`
(lines 516–517): proxy point position with the transformed proxy size. -/
def markerBox (cfg : Config α) (canvas : Canvas α) (cp : CrossingPoint α) :
    Bounds α :=
  let pwph := transformWidthHeight cfg cp.nodeBounds canvas
  ⟨cp.proxyPoint.x, cp.proxyPoint.y, pwph.1, pwph.2.1⟩

/-- The node rectangle tested by `filterOverlappingWithNodes` (line 520):
`absoluteX/absoluteY` properties with the node's own width/height. -/
def nodeAbsBounds (n : SKNode α) : Bounds α :=
  ⟨n.absoluteX, n.absoluteY, n.bounds.width, n.bounds.height⟩

/-- The overlap search of `filterOverlappingWithNodes` (lines 515–525): any
node at level `depth` or deeper whose bounds overlap `box`. -/
def overlapFromDepth (rows : List (List (SKNode α))) (depth : ℕ)
    (box : Bounds α) : Bool :=
  (rows.drop depth).any fun row =>
    row.any fun nd => decide (isInBounds box (nodeAbsBounds nd))

/-- The represented node's depth, `getDepth(cp.node, root)` (line 513).  A
crossing point with an absent node would throw in the source before reaching
this read; the embedding returns depth 0 there (not exercised by claims). -/
def cpDepth (root : SKNode α) (cp : CrossingPoint α) : ℕ :=
  match cp.node with
  | some n => depthIdx root n.id
  | none => 0

/-- The inner crossing-point loop of `filterOverlappingWithNodes`
(lines 512–529) with the `depth ??=` accumulator: the first point's node
depth is computed once and reused for the later points. -/
def filterCPs (cfg : Config α) (canvas : Canvas α) (root : SKNode α)
    (rows : List (List (SKNode α))) :
    Option ℕ → List (CrossingPoint α) → List (CrossingPoint α)
  | _, [] => []
  | dep?, cp :: rest =>
    let dep := dep?.getD (cpDepth root cp)
    (if overlapFromDepth rows dep (markerBox cfg canvas cp) then []
      else [cp])
      ++ filterCPs cfg canvas root rows (some dep) rest

/-- The per-crossing baseline depth of `filterOverlappingWithNodes`
(lines 504–509): deeper endpoint depth when both endpoints are `SKNode`s,
otherwise undefined (filled per-point by `filterCPs`). -/
def baselineDepth (root : SKNode α) (cr : Crossing α) : Option ℕ :=
  match cr.edge.target, cr.edge.source with
  | some tg, some src =>
    some (max (depthIdx root src.id) (depthIdx root tg.id))
  | _, _ => none

/-- `filterOverlappingWithNodes(crossings, root, canvasCRF)` (lines 498–536):
drop crossing points whose marker overlaps a node at or below the baseline
depth, and drop crossings left with no points. -/
def filterOverlappingWithNodes (cfg : Config α) (crossings : List (Crossing α))
    (root : SKNode α) (canvas : Canvas α) : List (Crossing α) :=
  let rows := getTreeDepths root
  crossings.filterMap fun crossing =>
    match filterCPs cfg canvas root rows (baselineDepth root crossing)
        crossing.crossingPoints with
    | [] => none
    | kept => some { crossing with crossingPoints := kept }

end DataModel

/-- `isIncoming(t, bounds, bezierPoints)` (lines 868–880): perturb `t` by
`∓0.03`, evaluate, and test viewport membership. -/
noncomputable def isIncoming (t : ℝ) (bounds : Bounds ℝ)
    (bezierPoints : List (Pt ℝ)) : Bool :=
  let newt := if t > 1 / 2 then t - 3 / 100 else t + 3 / 100
  let newPoint := computeCubic newt bezierPoints
  let result := decide (isInBounds (asBounds newPoint) bounds)
  if t > 1 / 2 then !result else result

/-- `rpoints.slice(i*3, i*3 + 4)` (line 673): control points of segment
`i`. -/
def segPoints (rpoints : List (Pt ℝ)) (i : ℕ) : List (Pt ℝ) :=
  (rpoints.drop (i * 3)).take 4

/-- The per-segment boundary solving of `getCrossings` (lines 682–712): test
each of the four boundary lines the segment's box straddles, tag the side,
and filter by the grace offset (1). -/
noncomputable def cPointsOfSegment (canvas : Bounds ℝ) (pointBound : Bounds ℝ)
    (bPoints : List (Pt ℝ)) : List (Pt ℝ × ℝ × Sides) :=
  if isCrossingBounds pointBound canvas then
    let b1 := pointBound
    let b2 := canvas
    let cW := if b1.x ≤ b2.x ∧ b1.x + b1.width ≥ b2.x then
        (getValueAt b2.x bPoints 0).map (fun r => (r.1, r.2, Sides.W)) else []
    let cE := if b1.x ≤ b2.x + b2.width ∧ b1.x + b1.width ≥ b2.x + b2.width then
        (getValueAt (b2.x + b2.width) bPoints 0).map (fun r => (r.1, r.2, Sides.E))
      else []
    let cN := if b1.y ≤ b2.y ∧ b1.y + b1.height ≥ b2.y then
        (getValueAt b2.y bPoints 1).map (fun r => (r.1, r.2, Sides.N)) else []
    let cS := if b1.y ≤ b2.y + b2.height ∧ b1.y + b1.height ≥ b2.y + b2.height then
        (getValueAt (b2.y + b2.height) bPoints 1).map (fun r => (r.1, r.2, Sides.S))
      else []
    (cW ++ cE ++ cN ++ cS).filter fun r =>
      decide (r.1.x ≥ b2.x - 1 ∧ r.1.x ≤ b2.x + b2.width + 1
        ∧ r.1.y ≥ b2.y - 1 ∧ r.1.y ≤ b2.y + b2.height + 1)
  else []

/-- Building one `CrossingPoint` (lines 714–728): classify direction, snapshot
the corresponding endpoint (`Object.create` is a value copy here), resolve the
synthesis proxy rendering.  An absent endpoint would throw in the source; the
embedding stores `none` with zero bounds (not exercised by claims). -/
noncomputable def crossingPointOfRoot (cfg : Config ℝ) (canvas : Bounds ℝ)
    (edge : SKEdge ℝ) (bPoints : List (Pt ℝ)) (i : ℕ) (r : Pt ℝ × ℝ × Sides) :
    CrossingPoint ℝ :=
  let incoming := isIncoming r.2.1 canvas bPoints
  let nodeOpt := if incoming then edge.source else edge.target
  match nodeOpt with
  | some n =>
    let pr := getSynthesisProxyRenderingSingle cfg n
    { point := r.1, t := r.2.1, side := r.2.2, incoming := incoming,
      sectionNr := i, proxyPoint := r.1, node := some pr.1,
      nodeBounds := pr.2, anchor := Anchors.towardsEdge }
  | none =>
    { point := r.1, t := r.2.1, side := r.2.2, incoming := incoming,
      sectionNr := i, proxyPoint := r.1, node := none,
      nodeBounds := ⟨0, 0, 0, 0⟩, anchor := Anchors.towardsEdge }

/-- The per-edge body of `getCrossings` (lines 657–736): `some` crossing for a
valid `3n+1` route (`n ≥ 1`), `none` (a diagnostic) otherwise. -/
noncomputable def crossingOfEdge (cfg : Config ℝ) (canvas : Bounds ℝ)
    (edge : SKEdge ℝ) : Option (Crossing ℝ) :=
  let rpoints := edge.routingPoints
  if rpoints.length % 3 = 1 ∧ 4 ≤ rpoints.length then
    let nSeg := rpoints.length / 3
    let bezierPoints := (List.range nSeg).map (segPoints rpoints)
    let pointBounds := bezierPoints.map getBoundsFromPoints
    let newCrossings := (List.range nSeg).flatMap fun i =>
      (cPointsOfSegment canvas (pointBounds.getD i ⟨0, 0, 0, 0⟩)
          (bezierPoints.getD i [])).map
        (crossingPointOfRoot cfg canvas edge (bezierPoints.getD i []) i)
    some { edge := edge, pointBounds := pointBounds,
           bezierPoints := bezierPoints, crossingPoints := newCrossings }
  else none

/-- `getCrossings(proxyEdges, canvasCRF, ctx)` (lines 649–741).  The second
component counts the `console.log` diagnostics emitted for malformed
routes. -/
noncomputable def getCrossings (cfg : Config ℝ) (proxyEdges : List (SKEdge ℝ))
    (canvasCRF : Bounds ℝ) : List (Crossing ℝ) × ℕ :=
  match proxyEdges with
  | [] => ([], 0)
  | e :: rest =>
    let r := getCrossings cfg rest canvasCRF
    match crossingOfEdge cfg canvasCRF e with
    | some c => (c :: r.1, r.2)
    | none => (r.1, r.2 + 1)

/-- The derived multiplier of `updateProxyPlacementPoints` (lines 784–793):
`towardsMiddle → 1`, `center → 0.5`, otherwise the initial `0`. -/
def offsetMultiplierOf {α : Type} [LinearOrderedField α] (anchor : Anchors) :
    α :=
  if anchor = Anchors.towardsMiddle then 1
  else if anchor = Anchors.center then 1 / 2
  else 0

/-- The shrunk search rectangle of `updateProxyPlacementPoints`
(lines 819–824). -/
def searchBound {α : Type} [LinearOrderedField α] (canvas : Canvas α)
    (side : Sides) (offsetx offsety : α) : Bounds α :=
  if side = Sides.N ∨ side = Sides.S then
    ⟨canvas.x, canvas.y + offsety, canvas.width, canvas.height - 2 * offsety⟩
  else
    ⟨canvas.x + offsetx, canvas.y, canvas.width - 2 * offsetx, canvas.height⟩

/-- The grace-offset filter of `updateProxyPlacementPoints` (lines 843–846),
identical to the one in `getCrossings`. -/
noncomputable def graceFilter (bound : Bounds ℝ) (p : List (Pt ℝ × ℝ)) :
    List (Pt ℝ × ℝ) :=
  p.filter fun r =>
    decide (r.1.x ≥ bound.x - 1 ∧ r.1.x ≤ bound.x + bound.width + 1
      ∧ r.1.y ≥ bound.y - 1 ∧ r.1.y ≤ bound.y + bound.height + 1)

/-- The per-side re-solving of `updateProxyPlacementPoints`
(lines 831–840). -/
noncomputable def solveSide (bound : Bounds ℝ) (side : Sides)
    (bPoints : List (Pt ℝ)) : List (Pt ℝ × ℝ) :=
  match side with
  | Sides.N => getValueAt bound.y bPoints 1
  | Sides.E => getValueAt (bound.x + bound.width) bPoints 0
  | Sides.S => getValueAt (bound.y + bound.height) bPoints 1
  | Sides.W => getValueAt bound.x bPoints 0

/-- The segment walk of `updateProxyPlacementPoints` (lines 826–854): first
position whose segment box crosses the shrunk rectangle and yields a
grace-filtered root; its first solution becomes the new anchor point. -/
noncomputable def findAnchor (crossing : Crossing ℝ) (bound : Bounds ℝ)
    (side : Sides) : List ℕ → Option (Pt ℝ)
  | [] => none
  | pos :: rest =>
    let pointBound := crossing.pointBounds.getD pos ⟨0, 0, 0, 0⟩
    let bPoints := crossing.bezierPoints.getD pos []
    if isCrossingBounds pointBound bound then
      match graceFilter bound (solveSide bound side bPoints) with
      | [] => findAnchor crossing bound side rest
      | r :: _ => some r.1
    else findAnchor crossing bound side rest

/-- The positions visited by the source loop
`for (pos = section; pos != end + direction; pos += direction)`: from the
crossing's own segment toward `end`.  (On out-of-order section data the
source loop would not terminate; the embedding visits nothing there, a case
no claim exercises.) -/
def searchPositions (sectionNr endNr : ℕ) (incoming : Bool) : List ℕ :=
  if incoming then List.range' sectionNr (endNr + 1 - sectionNr)
  else (List.range' endNr (sectionNr + 1 - endNr)).reverse

/-- The search-range end of `updateProxyPlacementPoints` (lines 810–817): the
adjacent crossing point's segment, or the path's first/last segment. -/
def endSection {α : Type} [LinearOrderedField α] (crossing : Crossing α)
    (a : ℕ) (cp : CrossingPoint α) : ℕ :=
  if cp.incoming then
    if crossing.crossingPoints.length ≤ a + 1 then
      crossing.pointBounds.length - 1
    else (crossing.crossingPoints.getD (a + 1) cp).sectionNr
  else
    if a = 0 then 0 else (crossing.crossingPoints.getD (a - 1) cp).sectionNr

/-- The update of one crossing point in `updateProxyPlacementPoints`
(lines 802–854): compute the shrunk rectangle for its side, walk the search
range, and on success replace `proxyPoint` and set `anchor`; otherwise leave
the point unchanged. -/
noncomputable def updateCP (cfg : Config ℝ) (canvas : Canvas ℝ)
    (anchorMode : Anchors) (offsetMultiplier : ℝ) (crossing : Crossing ℝ)
    (a : ℕ) (cp : CrossingPoint ℝ) : CrossingPoint ℝ :=
  let pwph := transformWidthHeight cfg cp.nodeBounds canvas
  let offsetx := pwph.1 * offsetMultiplier
  let offsety := pwph.2.1 * offsetMultiplier
  let endNr := endSection crossing a cp
  let bound := searchBound canvas cp.side offsetx offsety
  match findAnchor crossing bound cp.side
      (searchPositions cp.sectionNr endNr cp.incoming) with
  | some pt => { cp with proxyPoint := pt, anchor := anchorMode }
  | none => cp

/-- `updateProxyPlacementPoints(crossings, canvasCRF)` (lines 783–858).  The
anchor policy is hard-coded to `towardsMiddle` in the source (line 784); the
in-place mutation only writes fields (`proxyPoint`, `anchor`) never read by
later iterations, so mapping over the original points is equivalent. -/
noncomputable def updateProxyPlacementPoints (cfg : Config ℝ)
    (crossings : List (Crossing ℝ)) (canvasCRF : Canvas ℝ) :
    List (Crossing ℝ) :=
  let anchorMode := Anchors.towardsMiddle
  let offsetMultiplier : ℝ := offsetMultiplierOf anchorMode
  crossings.map fun crossing =>
    { crossing with crossingPoints :=
        crossing.crossingPoints.enum.map (fun ic =>
          updateCP cfg canvasCRF anchorMode offsetMultiplier crossing
            ic.1 ic.2) }

/-! ## Auxiliary lemmas about the real cube root -/

theorem cube_left_injective {x y : ℝ} (h : x ^ 3 = y ^ 3) : x = y := by
  have hf : (x - y) * (x ^ 2 + x * y + y ^ 2) = 0 := by linear_combination h
  rcases mul_eq_zero.1 hf with h1 | h2
  · linarith [sub_eq_zero.1 h1]
  · have hy2 : y ^ 2 = 0 :=
      le_antisymm (by nlinarith [sq_nonneg (2 * x + y)]) (sq_nonneg y)
    have hy0 : y = 0 := by
      have := sq_eq_zero_iff.1 hy2
      exact this
    have hx0 : x = 0 := by
      have hx2 : x ^ 2 = 0 := by rw [hy0] at h2; linarith [h2]
      exact sq_eq_zero_iff.1 hx2
    rw [hx0, hy0]

theorem crt_cube (v : ℝ) : crt v ^ 3 = v := by
  unfold crt
  split
  · rename_i hv
    have hnn : (0 : ℝ) ≤ -v := by linarith
    have : ((-v) ^ ((1 : ℝ) / 3)) ^ (3 : ℕ) = -v := by
      rw [← Real.rpow_natCast ((-v) ^ ((1 : ℝ) / 3)) 3, ← Real.rpow_mul hnn]
      norm_num
    calc (-((-v) ^ ((1 : ℝ) / 3))) ^ 3
        = -(((-v) ^ ((1 : ℝ) / 3)) ^ 3) := by ring
      _ = v := by rw [this]; ring
  · rename_i hv
    have hnn : (0 : ℝ) ≤ v := by linarith
    rw [← Real.rpow_natCast (v ^ ((1 : ℝ) / 3)) 3, ← Real.rpow_mul hnn]
    norm_num

theorem crt_unique {v y : ℝ} (h : y ^ 3 = v) : crt v = y :=
  cube_left_injective (by rw [crt_cube, h])

theorem crt_mul (x y : ℝ) : crt (x * y) = crt x * crt y :=
  crt_unique (by rw [mul_pow, crt_cube, crt_cube])

/-! ## Completeness of the closed-form quadratic and cubic solvers -/

/-- Every real root of a genuine quadratic is one of the two values of the
standard formula, exactly as `roots` computes them. -/
theorem quad_root_cases {a b c t : ℝ} (ha : a ≠ 0)
    (h : a * t ^ 2 + b * t + c = 0) :
    t = (Real.sqrt (b * b - 4 * a * c) - b) / (2 * a) ∨
      t = (-b - Real.sqrt (b * b - 4 * a * c)) / (2 * a) := by
  have key : (2 * a * t + b) ^ 2 = b * b - 4 * a * c := by
    linear_combination 4 * a * h
  have hdisc : 0 ≤ b * b - 4 * a * c := key ▸ sq_nonneg _
  have hq : Real.sqrt (b * b - 4 * a * c) ^ 2 = b * b - 4 * a * c :=
    Real.sq_sqrt hdisc
  have hsq : (2 * a * t + b) ^ 2 = Real.sqrt (b * b - 4 * a * c) ^ 2 := by
    rw [hq, key]
  have hfac :
      (2 * a * t + b - Real.sqrt (b * b - 4 * a * c)) *
        (2 * a * t + b + Real.sqrt (b * b - 4 * a * c)) = 0 := by
    linear_combination hsq
  rcases mul_eq_zero.1 hfac with h1 | h2
  · left
    field_simp
    linarith [sub_eq_zero.1 h1]
  · right
    field_simp
    linarith [eq_neg_of_add_eq_zero_left h2]

/-- A monic real cubic with three pairwise distinct known roots has no other
root: the difference from the factored form is a quadratic vanishing at three
distinct points, hence zero. -/
theorem cubic_three_roots_exhaust {p q x1 x2 x3 s : ℝ}
    (h12 : x1 ≠ x2) (h13 : x1 ≠ x3) (h23 : x2 ≠ x3)
    (hr1 : x1 ^ 3 + p * x1 + q = 0) (hr2 : x2 ^ 3 + p * x2 + q = 0)
    (hr3 : x3 ^ 3 + p * x3 + q = 0) (hs : s ^ 3 + p * s + q = 0) :
    s = x1 ∨ s = x2 ∨ s = x3 := by
  set A := x1 + x2 + x3 with hA
  set B := p - (x1 * x2 + x1 * x3 + x2 * x3) with hB
  set C := q + x1 * x2 * x3 with hC
  have key : ∀ y : ℝ, y ^ 3 + p * y + q =
      (y - x1) * (y - x2) * (y - x3) + (A * y ^ 2 + B * y + C) := by
    intro y; rw [hA, hB, hC]; ring
  have e1 : A * x1 ^ 2 + B * x1 + C = 0 := by
    have := key x1; rw [hr1] at this; nlinarith [this]
  have e2 : A * x2 ^ 2 + B * x2 + C = 0 := by
    have := key x2; rw [hr2] at this; nlinarith [this]
  have e3 : A * x3 ^ 2 + B * x3 + C = 0 := by
    have := key x3; rw [hr3] at this; nlinarith [this]
  have d12 : A * (x1 + x2) + B = 0 := by
    have hne : x1 - x2 ≠ 0 := sub_ne_zero.2 h12
    have : (x1 - x2) * (A * (x1 + x2) + B) = 0 := by nlinarith [e1, e2]
    exact (mul_eq_zero.1 this).resolve_left hne
  have d13 : A * (x1 + x3) + B = 0 := by
    have hne : x1 - x3 ≠ 0 := sub_ne_zero.2 h13
    have : (x1 - x3) * (A * (x1 + x3) + B) = 0 := by nlinarith [e1, e3]
    exact (mul_eq_zero.1 this).resolve_left hne
  have hAz : A = 0 := by
    have hne : x2 - x3 ≠ 0 := sub_ne_zero.2 h23
    have : A * (x2 - x3) = 0 := by linarith [d12, d13]
    exact (mul_eq_zero.1 this).resolve_right hne
  have hBz : B = 0 := by rw [hAz] at d12; linarith [d12]
  have hCz : C = 0 := by rw [hAz, hBz] at e1; linarith [e1]
  have hfac : (s - x1) * (s - x2) * (s - x3) = 0 := by
    have := key s; rw [hs, hAz, hBz, hCz] at this; nlinarith [this]
  rcases mul_eq_zero.1 hfac with h' | h3
  · rcases mul_eq_zero.1 h' with h1 | h2
    · exact Or.inl (sub_eq_zero.1 h1)
    · exact Or.inr (Or.inl (sub_eq_zero.1 h2))
  · exact Or.inr (Or.inr (sub_eq_zero.1 h3))

/-- Zero-discriminant depressed cubic: the two values computed by `roots`
(a double and a simple root) exhaust the real roots. -/
theorem depressed_disc_zero {p q s : ℝ}
    (hd : q / 2 * (q / 2) + p / 3 * (p / 3) * (p / 3) = 0)
    (hs : s ^ 3 + p * s + q = 0) :
    s = 2 * (if q / 2 < 0 then crt (-(q / 2)) else -(crt (q / 2))) ∨
      s = -(if q / 2 < 0 then crt (-(q / 2)) else -(crt (q / 2))) := by
  set u1 := if q / 2 < 0 then crt (-(q / 2)) else -(crt (q / 2)) with hu1
  have hu3 : u1 ^ 3 = -(q / 2) := by
    rw [hu1]
    split
    · exact crt_cube _
    · rw [show (-(crt (q / 2))) ^ 3 = -((crt (q / 2)) ^ 3) by ring, crt_cube]
  have hp3 : p / 3 = -(u1 ^ 2) := by
    apply cube_left_injective
    have h1 : (p / 3) ^ 3 = -((q / 2) * (q / 2)) := by linear_combination hd
    have h2 : (-(u1 ^ 2)) ^ 3 = -((q / 2) * (q / 2)) := by
      have : (-(u1 ^ 2)) ^ 3 = -((u1 ^ 3) * (u1 ^ 3)) := by ring
      rw [this, hu3]; ring
    rw [h1, h2]
  have hp : p = -3 * u1 ^ 2 := by linarith [hp3]
  have hq : q = -2 * u1 ^ 3 := by linarith [hu3]
  have hfac : (s - 2 * u1) * (s + u1) ^ 2 = 0 := by
    rw [hp, hq] at hs; linear_combination hs
  rcases mul_eq_zero.1 hfac with h1 | h2
  · exact Or.inl (by linarith [sub_eq_zero.1 h1])
  · have := sq_eq_zero_iff.1 h2
    exact Or.inr (by linarith [this])

/-- Positive-discriminant depressed cubic: the single Cardano root computed by
`roots` is the only real root. -/
theorem depressed_disc_pos {p q s : ℝ}
    (hd : 0 < q / 2 * (q / 2) + p / 3 * (p / 3) * (p / 3))
    (hs : s ^ 3 + p * s + q = 0) :
    s = crt (-(q / 2) + Real.sqrt (q / 2 * (q / 2) + p / 3 * (p / 3) * (p / 3)))
        - crt (q / 2 + Real.sqrt (q / 2 * (q / 2) + p / 3 * (p / 3) * (p / 3))) := by
  set disc := q / 2 * (q / 2) + p / 3 * (p / 3) * (p / 3) with hdisc
  set sd := Real.sqrt disc with hsd
  have hsd2 : sd ^ 2 = disc := Real.sq_sqrt hd.le
  have hsdpos : 0 < sd := Real.sqrt_pos.2 hd
  set u1 := crt (-(q / 2) + sd) with hu1
  set v1 := crt (q / 2 + sd) with hv1
  have hu3 : u1 ^ 3 = -(q / 2) + sd := crt_cube _
  have hv3 : v1 ^ 3 = q / 2 + sd := crt_cube _
  have huv : u1 * v1 = p / 3 := by
    have hmul : (-(q / 2) + sd) * (q / 2 + sd) = (p / 3) ^ 3 := by
      have : (-(q / 2) + sd) * (q / 2 + sd) = sd ^ 2 - q / 2 * (q / 2) := by ring
      rw [this, hsd2, hdisc]; ring
    rw [hu1, hv1, ← crt_mul, hmul]
    exact crt_unique rfl
  set st := u1 - v1 with hst
  have hstroot : st ^ 3 + p * st + q = 0 := by
    have hexp : st ^ 3 = u1 ^ 3 - v1 ^ 3 - 3 * (u1 * v1) * st := by
      rw [hst]; ring
    rw [hexp, hu3, hv3, huv]; ring
  by_contra hne
  have hsub : s - st ≠ 0 := sub_ne_zero.2 hne
  have hquad : s ^ 2 + st * s + st ^ 2 + p = 0 := by
    have hfac : (s - st) * (s ^ 2 + st * s + st ^ 2 + p) = 0 := by
      linear_combination hs - hstroot
    exact (mul_eq_zero.1 hfac).resolve_left hsub
  have hsum : 3 * st ^ 2 + 4 * p = 3 * (u1 + v1) ^ 2 := by
    rw [hst]
    have : p = 3 * (u1 * v1) := by rw [huv]; ring
    rw [this]; ring
  have hsqle : (2 * s + st) ^ 2 = -(3 * (u1 + v1) ^ 2) := by
    linear_combination 4 * hquad + hsum + 24 * huv
  have huv0 : (u1 + v1) ^ 2 = 0 := by
    nlinarith [sq_nonneg (2 * s + st), sq_nonneg (u1 + v1)]
  have huveq : u1 = -v1 := by
    have := sq_eq_zero_iff.1 huv0
    linarith [this]
  have hsd0 : sd = 0 := by
    have h3 : u1 ^ 3 = -(v1 ^ 3) := by rw [huveq]; ring
    rw [hu3, hv3] at h3; linarith [h3]
  exact absurd hsd0 (ne_of_gt hsdpos)

/- Negative-discriminant depressed cubic: the three trigonometric values
computed by `roots` are distinct roots, and a cubic has no further roots,
so they exhaust the real roots.  The auxiliary quantities are passed with
their defining equations so the lemma applies to the solver's expressions. -/
set_option maxHeartbeats 1000000 in
theorem depressed_disc_neg {p q s R T CP phi t1 : ℝ}
    (hd : q / 2 * (q / 2) + p / 3 * (p / 3) * (p / 3) < 0)
    (hs : s ^ 3 + p * s + q = 0)
    (hR : R = Real.sqrt (-p / 3 * (-p / 3) * (-p / 3)))
    (hT : T = -q / (2 * R))
    (hCP : CP = if T < -1 then -1 else if T > 1 then 1 else T)
    (hphi : phi = Real.arccos CP)
    (ht1 : t1 = 2 * crt R) :
    s = t1 * Real.cos (phi / 3) ∨ s = t1 * Real.cos ((phi + 2 * Real.pi) / 3) ∨
      s = t1 * Real.cos ((phi + 2 * 2 * Real.pi) / 3) := by
  have hq2nn : 0 ≤ q / 2 * (q / 2) := mul_self_nonneg _
  have hp3cub : p / 3 * (p / 3) * (p / 3) < 0 := by linarith
  have hpneg : p < 0 := by
    by_contra hc
    push_neg at hc
    have h0 : 0 ≤ p / 3 := by linarith
    have : 0 ≤ p / 3 * (p / 3) * (p / 3) := mul_nonneg (mul_nonneg h0 h0) h0
    linarith
  have hmp3pos : 0 < -p / 3 := by linarith
  set m := Real.sqrt (-p / 3) with hm
  have hmpos : 0 < m := Real.sqrt_pos.2 hmp3pos
  have hm2 : m ^ 2 = -p / 3 := Real.sq_sqrt hmp3pos.le
  have hm3pos : 0 < m ^ 3 := by positivity
  have hReq : R = m ^ 3 := by
    rw [hR]
    have h1 : -p / 3 * (-p / 3) * (-p / 3) = (m ^ 3) ^ 2 := by
      rw [show ((m : ℝ) ^ 3) ^ 2 = (m ^ 2) ^ 3 by ring, hm2]; ring
    rw [h1, Real.sqrt_sq hm3pos.le]
  have hq2lt : q / 2 * (q / 2) < (m ^ 2) ^ 3 := by
    have : (m ^ 2) ^ 3 = -(p / 3 * (p / 3) * (p / 3)) := by rw [hm2]; ring
    linarith [this]
  have hTval : T = -q / (2 * m ^ 3) := by rw [hT, hReq]
  have h2m : (2 : ℝ) * m ≠ 0 := by positivity
  have hTlt : T < 1 := by
    rw [hTval, div_lt_one (by positivity)]
    nlinarith [hq2lt, hm3pos, sq_nonneg (q + 2 * m ^ 3)]
  have hTgt : -1 < T := by
    rw [hTval, lt_div_iff₀ (by positivity)]
    nlinarith [hq2lt, hm3pos, sq_nonneg (q - 2 * m ^ 3)]
  have hclamp : CP = T := by
    rw [hCP, if_neg (by linarith), if_neg (by linarith)]
  have hcos : Real.cos phi = T := by
    rw [hphi, hclamp]
    exact Real.cos_arccos (by linarith) (by linarith)
  have hphi0 : 0 < phi := by
    rw [hphi, hclamp]
    exact Real.arccos_pos.2 hTlt
  have hphipi : phi < Real.pi := by
    rw [hphi, hclamp]
    rcases lt_or_eq_of_le (Real.arccos_le_pi T) with h | h
    · exact h
    · exact absurd (Real.arccos_eq_pi.1 h) (by linarith)
  have hcrtR : crt R = m := by rw [hReq]; exact crt_unique rfl
  have ht1m : t1 = 2 * m := by rw [ht1, hcrtR]
  have hp : p = -3 * m ^ 2 := by linarith [hm2]
  have hroot : ∀ θ : ℝ, Real.cos (3 * θ) = T →
      (2 * m * Real.cos θ) ^ 3 + p * (2 * m * Real.cos θ) + q = 0 := by
    intro θ hθ
    have hc3 := Real.cos_three_mul θ
    have hexp : (2 * m * Real.cos θ) ^ 3 + p * (2 * m * Real.cos θ) + q
        = 2 * m ^ 3 * (4 * Real.cos θ ^ 3 - 3 * Real.cos θ) + q := by
      rw [hp]; ring
    rw [hexp, ← hc3, hθ, hTval]
    field_simp
    ring
  have h3a : (3 : ℝ) * (phi / 3) = phi := by ring
  have h3b : (3 : ℝ) * ((phi + 2 * Real.pi) / 3) = phi + 2 * Real.pi := by ring
  have h3c : (3 : ℝ) * ((phi + 2 * 2 * Real.pi) / 3)
      = phi + 2 * Real.pi + 2 * Real.pi := by ring
  have hr0 : (2 * m * Real.cos (phi / 3)) ^ 3 + p * (2 * m * Real.cos (phi / 3)) + q = 0 := by
    apply hroot; rw [h3a, hcos]
  have hr1 : (2 * m * Real.cos ((phi + 2 * Real.pi) / 3)) ^ 3
      + p * (2 * m * Real.cos ((phi + 2 * Real.pi) / 3)) + q = 0 := by
    apply hroot; rw [h3b, Real.cos_add_two_pi, hcos]
  have hr2 : (2 * m * Real.cos ((phi + 2 * 2 * Real.pi) / 3)) ^ 3
      + p * (2 * m * Real.cos ((phi + 2 * 2 * Real.pi) / 3)) + q = 0 := by
    apply hroot; rw [h3c, Real.cos_add_two_pi, Real.cos_add_two_pi, hcos]
  have hpi := Real.pi_pos
  have hc0 : 1 / 2 < Real.cos (phi / 3) := by
    have := Real.cos_lt_cos_of_nonneg_of_le_pi (by linarith : (0:ℝ) ≤ phi / 3)
      (by linarith : Real.pi / 3 ≤ Real.pi) (by linarith : phi / 3 < Real.pi / 3)
    rw [Real.cos_pi_div_three] at this
    exact this
  have hcos23 : Real.cos (2 * Real.pi / 3) = -(1 / 2) := by
    rw [show (2 : ℝ) * Real.pi / 3 = Real.pi - Real.pi / 3 by ring,
      Real.cos_pi_sub, Real.cos_pi_div_three]
  have hc1 : Real.cos ((phi + 2 * Real.pi) / 3) < -(1 / 2) := by
    have := Real.cos_lt_cos_of_nonneg_of_le_pi (by linarith : (0:ℝ) ≤ 2 * Real.pi / 3)
      (by linarith : (phi + 2 * Real.pi) / 3 ≤ Real.pi)
      (by linarith : 2 * Real.pi / 3 < (phi + 2 * Real.pi) / 3)
    rw [hcos23] at this
    exact this
  have hpsieq : Real.cos ((phi + 2 * 2 * Real.pi) / 3)
      = Real.cos ((2 * Real.pi - phi) / 3) := by
    rw [show (2 * Real.pi - phi) / 3 = 2 * Real.pi - (phi + 2 * 2 * Real.pi) / 3 by ring,
      Real.cos_two_pi_sub]
  have hc2a : Real.cos ((2 * Real.pi - phi) / 3) < 1 / 2 := by
    have := Real.cos_lt_cos_of_nonneg_of_le_pi (by linarith : (0:ℝ) ≤ Real.pi / 3)
      (by linarith : (2 * Real.pi - phi) / 3 ≤ Real.pi)
      (by linarith : Real.pi / 3 < (2 * Real.pi - phi) / 3)
    rw [Real.cos_pi_div_three] at this
    exact this
  have hc2b : -(1 / 2) < Real.cos ((2 * Real.pi - phi) / 3) := by
    have := Real.cos_lt_cos_of_nonneg_of_le_pi
      (by linarith : (0:ℝ) ≤ (2 * Real.pi - phi) / 3)
      (by linarith : 2 * Real.pi / 3 ≤ Real.pi)
      (by linarith : (2 * Real.pi - phi) / 3 < 2 * Real.pi / 3)
    rw [hcos23] at this
    exact this
  have hd01 : 2 * m * Real.cos (phi / 3) ≠ 2 * m * Real.cos ((phi + 2 * Real.pi) / 3) := by
    intro h
    have := mul_left_cancel₀ h2m h
    linarith [this]
  have hd02 : 2 * m * Real.cos (phi / 3)
      ≠ 2 * m * Real.cos ((phi + 2 * 2 * Real.pi) / 3) := by
    intro h
    have := mul_left_cancel₀ h2m h
    rw [hpsieq] at this
    linarith [this]
  have hd12 : 2 * m * Real.cos ((phi + 2 * Real.pi) / 3)
      ≠ 2 * m * Real.cos ((phi + 2 * 2 * Real.pi) / 3) := by
    intro h
    have := mul_left_cancel₀ h2m h
    rw [hpsieq] at this
    linarith [this]
  have hmem := cubic_three_roots_exhaust hd01 hd02 hd12 hr0 hr1 hr2 hs
  rw [ht1m]
  exact hmem

/- Completeness of the full cascading solver: every real root of
`d·t³ + a·t² + b·t + c` appears in the list computed by `roots`' case
analysis, provided the polynomial is not identically zero. -/
set_option maxHeartbeats 1000000 in
theorem mem_solveCubicAll {d a b c t : ℝ}
    (hroot : d * t ^ 3 + a * t ^ 2 + b * t + c = 0)
    (hnz : ¬(d = 0 ∧ a = 0 ∧ b = 0 ∧ c = 0)) :
    t ∈ solveCubicAll d a b c := by
  unfold solveCubicAll
  by_cases hd : d = 0
  · rw [if_pos hd]
    by_cases ha : a = 0
    · rw [if_pos ha]
      by_cases hb : b = 0
      · refine absurd ⟨hd, ha, hb, ?_⟩ hnz
        rw [hd, ha, hb] at hroot
        linarith [hroot]
      · rw [if_neg hb]
        have ht : t = -c / b := by
          rw [hd, ha] at hroot
          field_simp
          linarith [hroot]
        simp [ht]
    · rw [if_neg ha]
      have h2 : a * t ^ 2 + b * t + c = 0 := by
        rw [hd] at hroot; linarith [hroot]
      have := quad_root_cases ha h2
      dsimp only
      rcases this with h | h <;> simp [h]
  · rw [if_neg hd]
    dsimp only
    have hdep : (t + a / d / 3) ^ 3
        + (3 * (b / d) - a / d * (a / d)) / 3 * (t + a / d / 3)
        + (2 * (a / d) * (a / d) * (a / d) - 9 * (a / d) * (b / d)
            + 27 * (c / d)) / 27 = 0 := by
      have h1 : (t + a / d / 3) ^ 3
          + (3 * (b / d) - a / d * (a / d)) / 3 * (t + a / d / 3)
          + (2 * (a / d) * (a / d) * (a / d) - 9 * (a / d) * (b / d)
              + 27 * (c / d)) / 27
          = (d * t ^ 3 + a * t ^ 2 + b * t + c) / d := by
        field_simp
        ring
      rw [h1, hroot, zero_div]
    split
    · rename_i hdisc
      have hcases := depressed_disc_neg hdisc hdep rfl rfl rfl rfl rfl
      rcases hcases with h | h | h
      · simp only [List.mem_cons, List.not_mem_nil, or_false]
        left; linarith [h]
      · simp only [List.mem_cons, List.not_mem_nil, or_false]
        right; left; linarith [h]
      · simp only [List.mem_cons, List.not_mem_nil, or_false]
        right; right; linarith [h]
    · rename_i h1
      split
      · rename_i hdisc
        have hcases := depressed_disc_zero hdisc hdep
        rcases hcases with h | h
        · simp only [List.mem_cons, List.not_mem_nil, or_false]
          left; linarith [h]
        · simp only [List.mem_cons, List.not_mem_nil, or_false]
          right; linarith [h]
      · rename_i h2
        have hpos : 0 < (2 * (a / d) * (a / d) * (a / d) - 9 * (a / d) * (b / d)
              + 27 * (c / d)) / 27 / 2
            * ((2 * (a / d) * (a / d) * (a / d) - 9 * (a / d) * (b / d)
              + 27 * (c / d)) / 27 / 2)
            + (3 * (b / d) - a / d * (a / d)) / 3 / 3
            * ((3 * (b / d) - a / d * (a / d)) / 3 / 3)
            * ((3 * (b / d) - a / d * (a / d)) / 3 / 3) :=
          lt_of_le_of_ne (not_lt.1 h1) (Ne.symm h2)
        have hcase := depressed_disc_pos hpos hdep
        simp only [List.mem_cons, List.not_mem_nil, or_false]
        linarith [hcase]

/-! ## The two alignment transforms used by `getValueAt` -/

theorem atan2_zero_one : atan2 0 1 = 0 := by
  unfold atan2
  have h : (⟨1, 0⟩ : ℂ) = 1 := by
    apply Complex.ext <;> simp
  rw [h, Complex.arg_one]

theorem atan2_one_zero : atan2 1 0 = Real.pi / 2 := by
  unfold atan2
  have h : (⟨0, 1⟩ : ℂ) = Complex.I := by
    apply Complex.ext <;> simp
  rw [h, Complex.arg_I]

/-- Aligning against the horizontal unit line (axis 0) is the identity. -/
theorem align_axis0 (pts : List (Pt ℝ)) :
    align pts ⟨⟨0, 0⟩, ⟨1, 0⟩⟩ = pts := by
  unfold align
  have hA : -(atan2 ((0 : ℝ) - 0) ((1 : ℝ) - 0)) = 0 := by
    norm_num [atan2_zero_one]
  dsimp only
  rw [hA]
  simp only [Real.cos_zero, Real.sin_zero, mul_one, mul_zero, sub_zero,
    zero_add, add_zero]
  have : (fun v : Pt ℝ => (⟨v.x, v.y⟩ : Pt ℝ)) = id := funext fun v => rfl
  rw [this, List.map_id]

/-- Aligning against the vertical unit line (axis 1) maps `(x, y)` to
`(y, -x)`. -/
theorem align_axis1 (pts : List (Pt ℝ)) :
    align pts ⟨⟨0, 0⟩, ⟨0, 1⟩⟩ = pts.map fun p => (⟨p.y, -p.x⟩ : Pt ℝ) := by
  unfold align
  have hA : -(atan2 ((1 : ℝ) - 0) ((0 : ℝ) - 0)) = -(Real.pi / 2) := by
    norm_num [atan2_one_zero]
  dsimp only
  rw [hA]
  simp only [Real.cos_neg, Real.sin_neg, Real.cos_pi_div_two,
    Real.sin_pi_div_two, mul_zero, mul_neg, mul_one, sub_zero, zero_sub,
    neg_neg, zero_add, add_zero]

theorem axisCoord_zero {α : Type} (p : Pt α) : axisCoord p 0 = p.x := rfl

theorem axisCoord_one {α : Type} (p : Pt α) : axisCoord p 1 = p.y := rfl

theorem roots_def (points : List (Pt ℝ)) (line : Line ℝ) {d a b c : ℝ}
    (hq : cubicCoeffsOf points line = (d, a, b, c)) :
    roots points line = (solveCubicAll d a b c).filter reduceB := by
  unfold roots
  rw [hq]

theorem getValueAt_zero_def (v : ℝ) (pts : List (Pt ℝ)) :
    getValueAt v pts 0 =
      (roots (pts.map fun p => (⟨p.y - v, p.x - v⟩ : Pt ℝ))
          ⟨⟨0, 0⟩, ⟨1, 0⟩⟩).map fun t => (computeCubic t pts, t) := by
  unfold getValueAt
  norm_num

theorem getValueAt_one_def (v : ℝ) (pts : List (Pt ℝ)) :
    getValueAt v pts 1 =
      (roots (pts.map fun p => (⟨p.y - v, p.x - v⟩ : Pt ℝ))
          ⟨⟨0, 0⟩, ⟨0, 1⟩⟩).map fun t => (computeCubic t pts, t) := by
  unfold getValueAt
  norm_num

/-- Structural soundness of `getValueAt`: every returned pair has its
parameter in `[0,1]` (the `reduce` filter) and its point is the evaluation of
the original, pre-alignment curve at that parameter. -/
theorem getValueAt_sound (v : ℝ) (points : List (Pt ℝ)) (axis : ℕ) :
    ∀ r ∈ getValueAt v points axis,
      (0 ≤ r.2 ∧ r.2 ≤ 1) ∧ r.1 = computeCubic r.2 points := by
  intro r hr
  unfold getValueAt at hr
  dsimp only at hr
  rcases List.mem_map.1 hr with ⟨t, ht, rfl⟩
  refine ⟨?_, rfl⟩
  rcases hq : cubicCoeffsOf
      (points.map fun p => (⟨p.y - v, p.x - v⟩ : Pt ℝ))
      (if axis = 1 then ⟨⟨0, 0⟩, ⟨0, 1⟩⟩ else ⟨⟨0, 0⟩, ⟨1, 0⟩⟩) with
    ⟨d, a, b, c⟩
  rw [roots_def _ _ hq] at ht
  have hred := (List.mem_filter.1 ht).2
  unfold reduceB at hred
  exact of_decide_eq_true hred

/-- Completeness of `roots` for the axis-0 alignment: a parameter in `[0,1]`
where the curve's x-coordinate equals `v` is found, unless the x-coordinate
is constantly `v`. -/
theorem roots_complete_axis0 (P0 P1 P2 P3 : Pt ℝ) (v t : ℝ)
    (h0 : 0 ≤ t) (h1 : t ≤ 1)
    (hroot : (computeCubic t [P0, P1, P2, P3]).x = v)
    (hnd : ¬(P0.x = v ∧ P1.x = v ∧ P2.x = v ∧ P3.x = v)) :
    t ∈ roots ([P0, P1, P2, P3].map fun p => (⟨p.y - v, p.x - v⟩ : Pt ℝ))
        ⟨⟨0, 0⟩, ⟨1, 0⟩⟩ := by
  have hq : cubicCoeffsOf
      ([P0, P1, P2, P3].map fun p => (⟨p.y - v, p.x - v⟩ : Pt ℝ))
      ⟨⟨0, 0⟩, ⟨1, 0⟩⟩
      = (-(P0.x - v) + 3 * (P1.x - v) - 3 * (P2.x - v) + (P3.x - v),
         3 * (P0.x - v) - 6 * (P1.x - v) + 3 * (P2.x - v),
         -3 * (P0.x - v) + 3 * (P1.x - v), P0.x - v) := by
    unfold cubicCoeffsOf
    rw [List.map_cons, List.map_cons, List.map_cons, List.map_cons,
      List.map_nil, align_axis0]
    rfl
  rw [roots_def _ _ hq]
  refine List.mem_filter.2 ⟨?_, ?_⟩
  · apply mem_solveCubicAll
    · have hcc : (computeCubic t [P0, P1, P2, P3]).x
          = (1 - t) * (1 - t) * (1 - t) * P0.x + (1 - t) * (1 - t) * t * 3 * P1.x
            + (1 - t) * t * t * 3 * P2.x + t * t * t * P3.x := rfl
      rw [hcc] at hroot
      linear_combination hroot
    · rintro ⟨hD, hA, hB, hC⟩
      exact hnd ⟨by linarith, by linarith, by linarith, by linarith⟩
  · unfold reduceB
    simp [h0, h1]

/-- Completeness of `roots` for the axis-1 alignment: same as
`roots_complete_axis0`, for the y-coordinate. -/
theorem roots_complete_axis1 (P0 P1 P2 P3 : Pt ℝ) (v t : ℝ)
    (h0 : 0 ≤ t) (h1 : t ≤ 1)
    (hroot : (computeCubic t [P0, P1, P2, P3]).y = v)
    (hnd : ¬(P0.y = v ∧ P1.y = v ∧ P2.y = v ∧ P3.y = v)) :
    t ∈ roots ([P0, P1, P2, P3].map fun p => (⟨p.y - v, p.x - v⟩ : Pt ℝ))
        ⟨⟨0, 0⟩, ⟨0, 1⟩⟩ := by
  have hq : cubicCoeffsOf
      ([P0, P1, P2, P3].map fun p => (⟨p.y - v, p.x - v⟩ : Pt ℝ))
      ⟨⟨0, 0⟩, ⟨0, 1⟩⟩
      = (-(-(P0.y - v)) + 3 * (-(P1.y - v)) - 3 * (-(P2.y - v)) + -(P3.y - v),
         3 * (-(P0.y - v)) - 6 * (-(P1.y - v)) + 3 * (-(P2.y - v)),
         -3 * (-(P0.y - v)) + 3 * (-(P1.y - v)), -(P0.y - v)) := by
    unfold cubicCoeffsOf
    rw [List.map_cons, List.map_cons, List.map_cons, List.map_cons,
      List.map_nil, align_axis1]
    rfl
  rw [roots_def _ _ hq]
  refine List.mem_filter.2 ⟨?_, ?_⟩
  · apply mem_solveCubicAll
    · have hcc : (computeCubic t [P0, P1, P2, P3]).y
          = (1 - t) * (1 - t) * (1 - t) * P0.y + (1 - t) * (1 - t) * t * 3 * P1.y
            + (1 - t) * t * t * 3 * P2.y + t * t * t * P3.y := rfl
      rw [hcc] at hroot
      linear_combination -hroot
    · rintro ⟨hD, hA, hB, hC⟩
      exact hnd ⟨by linarith, by linarith, by linarith, by linarith⟩
  · unfold reduceB
    simp [h0, h1]

/-- C1 (counterexample to the claim as stated): for the constant curve with
all four control points `(0,0)`, axis 0 and `t0 = 0`, the value
`v = computeCubic(0).x` is attained at `t0`, yet `getValueAt` returns the
empty list (the solver's fully-degenerate branch), so no returned pair matches
the evaluated point. -/
theorem claim1_counterexample :
    ¬ ∃ r ∈ getValueAt
        (axisCoord (computeCubic 0 [(⟨0, 0⟩ : Pt ℝ), ⟨0, 0⟩, ⟨0, 0⟩, ⟨0, 0⟩]) 0)
        [(⟨0, 0⟩ : Pt ℝ), ⟨0, 0⟩, ⟨0, 0⟩, ⟨0, 0⟩] 0,
      r.1 = computeCubic 0 [(⟨0, 0⟩ : Pt ℝ), ⟨0, 0⟩, ⟨0, 0⟩, ⟨0, 0⟩]
        ∧ 0 ≤ r.2 ∧ r.2 ≤ 1 := by
  have hv : axisCoord (computeCubic 0
      [(⟨0, 0⟩ : Pt ℝ), ⟨0, 0⟩, ⟨0, 0⟩, ⟨0, 0⟩]) 0 = 0 := by
    norm_num [axisCoord, computeCubic]
  rw [hv, getValueAt_zero_def]
  have hq : cubicCoeffsOf
      ([(⟨0, 0⟩ : Pt ℝ), ⟨0, 0⟩, ⟨0, 0⟩, ⟨0, 0⟩].map
        fun p => (⟨p.y - 0, p.x - 0⟩ : Pt ℝ))
      ⟨⟨0, 0⟩, ⟨1, 0⟩⟩ = (0, 0, 0, 0) := by
    unfold cubicCoeffsOf
    rw [List.map_cons, List.map_cons, List.map_cons, List.map_cons,
      List.map_nil, align_axis0]
    norm_num
  rw [roots_def _ _ hq]
  have hs : solveCubicAll 0 0 0 0 = [] := by
    unfold solveCubicAll
    norm_num
  rw [hs]
  simp

/-- C1 (amended): for a 4-control-point list, axis 0 or 1, and `t0 ∈ [0,1]`,
with `v` the curve's coordinate on that axis at `t0`, `getValueAt v` returns a
pair whose point is exactly `computeCubic t0` — provided the curve is not
constantly equal to `v` on that axis (all four control coordinates equal `v`),
in which case the solver's fully-degenerate branch returns the empty list.
Moreover every returned pair has `t ∈ [0,1]` and its point is the evaluation
of the original, pre-alignment curve at that `t`. -/
theorem claim1_roundtrip (points : List (Pt ℝ)) (t0 : ℝ) (axis : ℕ)
    (haxis : axis = 0 ∨ axis = 1) (hlen : points.length = 4)
    (h0 : 0 ≤ t0) (h1 : t0 ≤ 1)
    (hnd : ¬(axisCoord (points.getD 0 ⟨0, 0⟩) axis
          = axisCoord (computeCubic t0 points) axis
        ∧ axisCoord (points.getD 1 ⟨0, 0⟩) axis
          = axisCoord (computeCubic t0 points) axis
        ∧ axisCoord (points.getD 2 ⟨0, 0⟩) axis
          = axisCoord (computeCubic t0 points) axis
        ∧ axisCoord (points.getD 3 ⟨0, 0⟩) axis
          = axisCoord (computeCubic t0 points) axis)) :
    ((computeCubic t0 points, t0) ∈
        getValueAt (axisCoord (computeCubic t0 points) axis) points axis)
      ∧ ∀ v : ℝ, ∀ r ∈ getValueAt v points axis,
          (0 ≤ r.2 ∧ r.2 ≤ 1) ∧ r.1 = computeCubic r.2 points := by
  refine ⟨?_, fun v => getValueAt_sound v points axis⟩
  rcases points with _ | ⟨P0, _ | ⟨P1, _ | ⟨P2, _ | ⟨P3, _ | ⟨P4, tl⟩⟩⟩⟩⟩ <;>
    simp only [List.length] at hlen
  case nil => omega
  case cons.nil => omega
  case cons.cons.nil => omega
  case cons.cons.cons.nil => omega
  case cons.cons.cons.cons.cons => omega
  rcases haxis with rfl | rfl
  · rw [getValueAt_zero_def]
    refine List.mem_map.2 ⟨t0, ?_, rfl⟩
    exact roots_complete_axis0 P0 P1 P2 P3 _ t0 h0 h1 rfl hnd
  · rw [getValueAt_one_def]
    refine List.mem_map.2 ⟨t0, ?_, rfl⟩
    exact roots_complete_axis1 P0 P1 P2 P3 _ t0 h0 h1 rfl hnd

/-- Witness for `claim1_roundtrip` at the concrete curve
`[(0,0),(1,1),(2,0),(3,1)]`, axis 0, `t0 = 0`. -/
theorem claim1_roundtrip_witness :
    ((0 : ℕ) = 0 ∨ (0 : ℕ) = 1)
      ∧ [(⟨0, 0⟩ : Pt ℝ), ⟨1, 1⟩, ⟨2, 0⟩, ⟨3, 1⟩].length = 4
      ∧ (0 : ℝ) ≤ 0 ∧ (0 : ℝ) ≤ 1
      ∧ ¬(axisCoord (([(⟨0, 0⟩ : Pt ℝ), ⟨1, 1⟩, ⟨2, 0⟩, ⟨3, 1⟩]).getD 0 ⟨0, 0⟩) 0
            = axisCoord (computeCubic 0 [(⟨0, 0⟩ : Pt ℝ), ⟨1, 1⟩, ⟨2, 0⟩, ⟨3, 1⟩]) 0
          ∧ axisCoord (([(⟨0, 0⟩ : Pt ℝ), ⟨1, 1⟩, ⟨2, 0⟩, ⟨3, 1⟩]).getD 1 ⟨0, 0⟩) 0
            = axisCoord (computeCubic 0 [(⟨0, 0⟩ : Pt ℝ), ⟨1, 1⟩, ⟨2, 0⟩, ⟨3, 1⟩]) 0
          ∧ axisCoord (([(⟨0, 0⟩ : Pt ℝ), ⟨1, 1⟩, ⟨2, 0⟩, ⟨3, 1⟩]).getD 2 ⟨0, 0⟩) 0
            = axisCoord (computeCubic 0 [(⟨0, 0⟩ : Pt ℝ), ⟨1, 1⟩, ⟨2, 0⟩, ⟨3, 1⟩]) 0
          ∧ axisCoord (([(⟨0, 0⟩ : Pt ℝ), ⟨1, 1⟩, ⟨2, 0⟩, ⟨3, 1⟩]).getD 3 ⟨0, 0⟩) 0
            = axisCoord (computeCubic 0 [(⟨0, 0⟩ : Pt ℝ), ⟨1, 1⟩, ⟨2, 0⟩, ⟨3, 1⟩]) 0)
      ∧ ((computeCubic 0 [(⟨0, 0⟩ : Pt ℝ), ⟨1, 1⟩, ⟨2, 0⟩, ⟨3, 1⟩], (0 : ℝ)) ∈
          getValueAt
            (axisCoord (computeCubic 0 [(⟨0, 0⟩ : Pt ℝ), ⟨1, 1⟩, ⟨2, 0⟩, ⟨3, 1⟩]) 0)
            [(⟨0, 0⟩ : Pt ℝ), ⟨1, 1⟩, ⟨2, 0⟩, ⟨3, 1⟩] 0) := by
  have hnd : ¬(axisCoord (([(⟨0, 0⟩ : Pt ℝ), ⟨1, 1⟩, ⟨2, 0⟩, ⟨3, 1⟩]).getD 0 ⟨0, 0⟩) 0
        = axisCoord (computeCubic 0 [(⟨0, 0⟩ : Pt ℝ), ⟨1, 1⟩, ⟨2, 0⟩, ⟨3, 1⟩]) 0
      ∧ axisCoord (([(⟨0, 0⟩ : Pt ℝ), ⟨1, 1⟩, ⟨2, 0⟩, ⟨3, 1⟩]).getD 1 ⟨0, 0⟩) 0
        = axisCoord (computeCubic 0 [(⟨0, 0⟩ : Pt ℝ), ⟨1, 1⟩, ⟨2, 0⟩, ⟨3, 1⟩]) 0
      ∧ axisCoord (([(⟨0, 0⟩ : Pt ℝ), ⟨1, 1⟩, ⟨2, 0⟩, ⟨3, 1⟩]).getD 2 ⟨0, 0⟩) 0
        = axisCoord (computeCubic 0 [(⟨0, 0⟩ : Pt ℝ), ⟨1, 1⟩, ⟨2, 0⟩, ⟨3, 1⟩]) 0
      ∧ axisCoord (([(⟨0, 0⟩ : Pt ℝ), ⟨1, 1⟩, ⟨2, 0⟩, ⟨3, 1⟩]).getD 3 ⟨0, 0⟩) 0
        = axisCoord (computeCubic 0 [(⟨0, 0⟩ : Pt ℝ), ⟨1, 1⟩, ⟨2, 0⟩, ⟨3, 1⟩]) 0) := by
    intro h
    have h2 := h.2.1
    norm_num [axisCoord, computeCubic] at h2
  exact ⟨Or.inl rfl, rfl, le_refl 0, zero_le_one, hnd,
    (claim1_roundtrip [(⟨0, 0⟩ : Pt ℝ), ⟨1, 1⟩, ⟨2, 0⟩, ⟨3, 1⟩] 0 0
      (Or.inl rfl) rfl (le_refl 0) zero_le_one hnd).1⟩

/-- C6: the degeneracy cascade of `roots` (lines 44–64): zero cubic
coefficient falls through to the quadratic solver, zero quadratic coefficient
to the linear solver, and the fully degenerate (constant) case returns the
empty list; every branch returns a plain value (the embedding is a total
function — nothing can be raised). -/
theorem claim6_degenerate_cascade (points : List (Pt ℝ)) (line : Line ℝ)
    (d a b c : ℝ) (hq : cubicCoeffsOf points line = (d, a, b, c)) :
    (d = 0 → a = 0 → b = 0 → roots points line = [])
      ∧ (d = 0 → a = 0 → b ≠ 0 →
          roots points line = [-c / b].filter reduceB)
      ∧ (d = 0 → a ≠ 0 →
          roots points line =
            [(Real.sqrt (b * b - 4 * a * c) - b) / (2 * a),
             (-b - Real.sqrt (b * b - 4 * a * c)) / (2 * a)].filter reduceB) := by
  refine ⟨?_, ?_, ?_⟩
  · intro hd ha hb
    rw [roots_def _ _ hq]
    unfold solveCubicAll
    rw [if_pos hd, if_pos ha, if_pos hb]
    rfl
  · intro hd ha hb
    rw [roots_def _ _ hq]
    unfold solveCubicAll
    rw [if_pos hd, if_pos ha, if_neg hb]
  · intro hd ha
    rw [roots_def _ _ hq]
    unfold solveCubicAll
    rw [if_pos hd, if_neg ha]

/-- Witness for `claim6_degenerate_cascade`: four equal control points on the
default horizontal line give coefficients `(0, 0, 0, 0)` and the empty root
list. -/
theorem claim6_degenerate_cascade_witness :
    cubicCoeffsOf [(⟨0, 0⟩ : Pt ℝ), ⟨0, 0⟩, ⟨0, 0⟩, ⟨0, 0⟩]
        ⟨⟨0, 0⟩, ⟨1, 0⟩⟩ = (0, 0, 0, 0)
      ∧ roots [(⟨0, 0⟩ : Pt ℝ), ⟨0, 0⟩, ⟨0, 0⟩, ⟨0, 0⟩] ⟨⟨0, 0⟩, ⟨1, 0⟩⟩ = [] := by
  have hq : cubicCoeffsOf [(⟨0, 0⟩ : Pt ℝ), ⟨0, 0⟩, ⟨0, 0⟩, ⟨0, 0⟩]
      ⟨⟨0, 0⟩, ⟨1, 0⟩⟩ = (0, 0, 0, 0) := by
    unfold cubicCoeffsOf
    rw [align_axis0]
    norm_num
  exact ⟨hq,
    (claim6_degenerate_cascade _ _ 0 0 0 0 hq).1 rfl rfl rfl⟩

/-- C9: `isCrossingBounds` is symmetric, and holds exactly when the two
rectangles overlap (`isInBounds`, the spec's AABB overlap) while neither
fully contains the other. -/
theorem claim9_isCrossingBounds_symm {α : Type} [LinearOrderedField α]
    (a b : Bounds α) :
    (isCrossingBounds a b ↔ isCrossingBounds b a)
      ∧ (isCrossingBounds a b ↔
          (isInBounds a b
            ∧ ¬(a.x ≤ b.x ∧ b.x + b.width ≤ a.x + a.width
                ∧ a.y ≤ b.y ∧ b.y + b.height ≤ a.y + a.height)
            ∧ ¬(b.x ≤ a.x ∧ a.x + a.width ≤ b.x + b.width
                ∧ b.y ≤ a.y ∧ a.y + a.height ≤ b.y + b.height))) := by
  constructor
  · unfold isCrossingBounds isInBounds
    constructor <;> rintro ⟨h1, h2, h3⟩ <;>
      exact ⟨by tauto, by tauto, by tauto⟩
  · unfold isCrossingBounds isInBounds
    constructor <;> rintro ⟨h1, h2, h3⟩ <;>
      exact ⟨by tauto, by tauto, by tauto⟩

/-! ## `getBoundsFromPoints` is the minimal bounding box (C10) -/

theorem foldl_min_le_init {α : Type} [LinearOrder α] (h : α) (t : List α) :
    t.foldl min h ≤ h := by
  induction t generalizing h with
  | nil => exact le_refl h
  | cons a t ih => exact le_trans (ih (min h a)) (min_le_left h a)

theorem foldl_min_le_mem {α : Type} [LinearOrder α] {x : α} (h : α)
    (t : List α) (hx : x ∈ t) : t.foldl min h ≤ x := by
  induction t generalizing h with
  | nil => cases hx
  | cons a t ih =>
    rcases List.mem_cons.1 hx with rfl | hx'
    · exact le_trans (foldl_min_le_init (min h x) t) (min_le_right h x)
    · exact ih (min h a) hx'

theorem foldl_min_mem {α : Type} [LinearOrder α] (h : α) (t : List α) :
    t.foldl min h ∈ h :: t := by
  induction t generalizing h with
  | nil => simp [List.foldl]
  | cons a t ih =>
    have hmem := ih (min h a)
    rcases List.mem_cons.1 hmem with heq | hmem'
    · rcases min_choice h a with hc | hc
      · rw [List.foldl_cons, heq, hc]
        exact List.mem_cons_self _ _
      · rw [List.foldl_cons, heq, hc]
        exact List.mem_cons.2 (Or.inr (List.mem_cons_self _ _))
    · exact List.mem_cons.2 (Or.inr (List.mem_cons.2 (Or.inr hmem')))

theorem le_foldl_max {α : Type} [LinearOrder α] (h : α) (t : List α) :
    h ≤ t.foldl max h := by
  induction t generalizing h with
  | nil => exact le_refl h
  | cons a t ih => exact le_trans (le_max_left h a) (ih (max h a))

theorem mem_le_foldl_max {α : Type} [LinearOrder α] {x : α} (h : α)
    (t : List α) (hx : x ∈ t) : x ≤ t.foldl max h := by
  induction t generalizing h with
  | nil => cases hx
  | cons a t ih =>
    rcases List.mem_cons.1 hx with rfl | hx'
    · exact le_trans (le_max_right h x) (le_foldl_max (max h x) t)
    · exact ih (max h a) hx'

theorem foldl_max_mem {α : Type} [LinearOrder α] (h : α) (t : List α) :
    t.foldl max h ∈ h :: t := by
  induction t generalizing h with
  | nil => simp [List.foldl]
  | cons a t ih =>
    have hmem := ih (max h a)
    rcases List.mem_cons.1 hmem with heq | hmem'
    · rcases max_choice h a with hc | hc
      · rw [List.foldl_cons, heq, hc]
        exact List.mem_cons_self _ _
      · rw [List.foldl_cons, heq, hc]
        exact List.mem_cons.2 (Or.inr (List.mem_cons_self _ _))
    · exact List.mem_cons.2 (Or.inr (List.mem_cons.2 (Or.inr hmem')))

theorem minD_le_mem {α : Type} [LinearOrderedField α] {x : α} {l : List α}
    (hx : x ∈ l) : minD l ≤ x := by
  cases l with
  | nil => cases hx
  | cons h t =>
    unfold minD
    rcases List.mem_cons.1 hx with rfl | hx'
    · exact foldl_min_le_init _ _
    · exact foldl_min_le_mem _ _ hx'

theorem minD_mem {α : Type} [LinearOrderedField α] {l : List α}
    (hl : l ≠ []) : minD l ∈ l := by
  cases l with
  | nil => exact absurd rfl hl
  | cons h t =>
    unfold minD
    exact foldl_min_mem _ _

theorem mem_le_maxD {α : Type} [LinearOrderedField α] {x : α} {l : List α}
    (hx : x ∈ l) : x ≤ maxD l := by
  cases l with
  | nil => cases hx
  | cons h t =>
    unfold maxD
    rcases List.mem_cons.1 hx with rfl | hx'
    · exact le_foldl_max _ _
    · exact mem_le_foldl_max _ _ hx'

theorem maxD_mem {α : Type} [LinearOrderedField α] {l : List α}
    (hl : l ≠ []) : maxD l ∈ l := by
  cases l with
  | nil => exact absurd rfl hl
  | cons h t =>
    unfold maxD
    exact foldl_max_mem _ _

/-- C10: for a non-empty point list, `getBoundsFromPoints` is the minimal
axis-aligned bounding box: its corner coordinates are attained minima/maxima,
its width/height are non-negative, every input point lies inside it, and it
is contained in every rectangle containing all input points. -/
theorem claim10_getBoundsFromPoints {α : Type} [LinearOrderedField α]
    (points : List (Pt α)) (hne : points ≠ []) :
    (∀ p ∈ points,
        (getBoundsFromPoints points).x ≤ p.x
          ∧ p.x ≤ (getBoundsFromPoints points).x + (getBoundsFromPoints points).width
          ∧ (getBoundsFromPoints points).y ≤ p.y
          ∧ p.y ≤ (getBoundsFromPoints points).y + (getBoundsFromPoints points).height)
      ∧ 0 ≤ (getBoundsFromPoints points).width
      ∧ 0 ≤ (getBoundsFromPoints points).height
      ∧ (∃ p ∈ points, p.x = (getBoundsFromPoints points).x)
      ∧ (∃ p ∈ points, p.y = (getBoundsFromPoints points).y)
      ∧ (∃ p ∈ points,
          p.x = (getBoundsFromPoints points).x + (getBoundsFromPoints points).width)
      ∧ (∃ p ∈ points,
          p.y = (getBoundsFromPoints points).y + (getBoundsFromPoints points).height)
      ∧ ∀ r : Bounds α,
          (∀ p ∈ points, r.x ≤ p.x ∧ p.x ≤ r.x + r.width
            ∧ r.y ≤ p.y ∧ p.y ≤ r.y + r.height) →
          r.x ≤ (getBoundsFromPoints points).x
            ∧ (getBoundsFromPoints points).x + (getBoundsFromPoints points).width
              ≤ r.x + r.width
            ∧ r.y ≤ (getBoundsFromPoints points).y
            ∧ (getBoundsFromPoints points).y + (getBoundsFromPoints points).height
              ≤ r.y + r.height := by
  have hxne : points.map (·.x) ≠ [] := by
    intro h
    exact hne (List.map_eq_nil_iff.1 h)
  have hyne : points.map (·.y) ≠ [] := by
    intro h
    exact hne (List.map_eq_nil_iff.1 h)
  have hB : getBoundsFromPoints points
      = ⟨minD (points.map (·.x)), minD (points.map (·.y)),
         maxD (points.map (·.x)) - minD (points.map (·.x)),
         maxD (points.map (·.y)) - minD (points.map (·.y))⟩ := rfl
  rw [hB]
  dsimp only
  obtain ⟨px, hpx, hpx2⟩ := List.mem_map.1 (minD_mem hxne)
  obtain ⟨py, hpy, hpy2⟩ := List.mem_map.1 (minD_mem hyne)
  obtain ⟨qx, hqx, hqx2⟩ := List.mem_map.1 (maxD_mem hxne)
  obtain ⟨qy, hqy, hqy2⟩ := List.mem_map.1 (maxD_mem hyne)
  have hminx : ∀ p ∈ points, minD (points.map (·.x)) ≤ p.x := fun p hp =>
    minD_le_mem (List.mem_map_of_mem _ hp)
  have hminy : ∀ p ∈ points, minD (points.map (·.y)) ≤ p.y := fun p hp =>
    minD_le_mem (List.mem_map_of_mem _ hp)
  have hmaxx : ∀ p ∈ points, p.x ≤ maxD (points.map (·.x)) := fun p hp =>
    mem_le_maxD (List.mem_map_of_mem _ hp)
  have hmaxy : ∀ p ∈ points, p.y ≤ maxD (points.map (·.y)) := fun p hp =>
    mem_le_maxD (List.mem_map_of_mem _ hp)
  refine ⟨?_, ?_, ?_, ?_, ?_, ?_, ?_, ?_⟩
  · intro p hp
    refine ⟨hminx p hp, ?_, hminy p hp, ?_⟩
    · have := hmaxx p hp
      linarith
    · have := hmaxy p hp
      linarith
  · have := hminx px hpx
    rw [hpx2] at this
    have h2 := hmaxx px hpx
    linarith
  · have := hminy py hpy
    have h2 := hmaxy py hpy
    linarith
  · exact ⟨px, hpx, hpx2⟩
  · exact ⟨py, hpy, hpy2⟩
  · refine ⟨qx, hqx, ?_⟩
    linarith [hqx2]
  · refine ⟨qy, hqy, ?_⟩
    linarith [hqy2]
  · intro r hr
    have h1 := (hr px hpx).1
    have h2 := (hr qx hqx).2.1
    have h3 := (hr py hpy).2.2.1
    have h4 := (hr qy hqy).2.2.2
    refine ⟨by linarith, by linarith, by linarith, by linarith⟩

/-- Witness for `claim10_getBoundsFromPoints` on the two-point list
`[(1,2),(4,0)]` over `ℚ`. -/
theorem claim10_getBoundsFromPoints_witness :
    ([(⟨1, 2⟩ : Pt ℚ), ⟨4, 0⟩] ≠ [])
      ∧ (∀ p ∈ [(⟨1, 2⟩ : Pt ℚ), ⟨4, 0⟩],
          (getBoundsFromPoints [(⟨1, 2⟩ : Pt ℚ), ⟨4, 0⟩]).x ≤ p.x
            ∧ p.x ≤ (getBoundsFromPoints [(⟨1, 2⟩ : Pt ℚ), ⟨4, 0⟩]).x
                + (getBoundsFromPoints [(⟨1, 2⟩ : Pt ℚ), ⟨4, 0⟩]).width
            ∧ (getBoundsFromPoints [(⟨1, 2⟩ : Pt ℚ), ⟨4, 0⟩]).y ≤ p.y
            ∧ p.y ≤ (getBoundsFromPoints [(⟨1, 2⟩ : Pt ℚ), ⟨4, 0⟩]).y
                + (getBoundsFromPoints [(⟨1, 2⟩ : Pt ℚ), ⟨4, 0⟩]).height) := by
  have hne : [(⟨1, 2⟩ : Pt ℚ), ⟨4, 0⟩] ≠ [] := by decide
  exact ⟨hne, (claim10_getBoundsFromPoints [(⟨1, 2⟩ : Pt ℚ), ⟨4, 0⟩] hne).1⟩

/-- C7: `applyAnchors` subtracts from each crossing point's anchor point the
offset of its `(Anchor, Side)` table entry and then sets the point's anchor to
`topLeft`; the `towardsMiddle`/`North` entry is (half marker width, full
marker height) and the single `center` entry (half width, half height) is
used for every side. -/
theorem claim7_applyAnchors {α : Type} [LinearOrderedField α]
    (cfg : Config α) (canvas : Canvas α) (crossings : List (Crossing α)) :
    (applyAnchors cfg canvas crossings
      = crossings.map fun crossing =>
          { crossing with crossingPoints := crossing.crossingPoints.map fun cp =>
              { cp with
                  proxyPoint :=
                    ⟨cp.proxyPoint.x -
                        (getAnchorOffsets
                          ⟨0, 0, (transformWidthHeight cfg cp.nodeBounds canvas).1,
                            (transformWidthHeight cfg cp.nodeBounds canvas).2.1⟩
                          cp.side cp.anchor).1,
                      cp.proxyPoint.y -
                        (getAnchorOffsets
                          ⟨0, 0, (transformWidthHeight cfg cp.nodeBounds canvas).1,
                            (transformWidthHeight cfg cp.nodeBounds canvas).2.1⟩
                          cp.side cp.anchor).2⟩,
                  anchor := Anchors.topLeft } })
      ∧ (∀ bounds : Bounds α,
          getAnchorOffsets bounds Sides.N Anchors.towardsMiddle
            = (bounds.width * (1 / 2), bounds.height))
      ∧ (∀ (bounds : Bounds α) (side : Sides),
          getAnchorOffsets bounds side Anchors.center
            = (bounds.width * (1 / 2), bounds.height * (1 / 2))) := by
  refine ⟨rfl, fun bounds => rfl, fun bounds side => ?_⟩
  cases side <;> rfl

/-- C5 (counterexample to the claim as stated): for a North crossing with
marker height 10 (viewport 100×100, zoom 1, size fraction 1/10 with
original-node scaling) the code's search rectangle is inset by the marker
height at the bottom as well — its bottom edge is not the viewport's bottom
edge, so the "other three sides unchanged" part fails. -/
theorem claim5_counterexample :
    ¬((searchBound (⟨0, 0, 100, 100, 1⟩ : Canvas ℚ) Sides.N
          ((transformWidthHeight ⟨1 / 10, true, false, false⟩ ⟨0, 0, 10, 10⟩
              ⟨0, 0, 100, 100, 1⟩).1 * offsetMultiplierOf Anchors.towardsMiddle)
          ((transformWidthHeight ⟨1 / 10, true, false, false⟩ ⟨0, 0, 10, 10⟩
              ⟨0, 0, 100, 100, 1⟩).2.1 * offsetMultiplierOf Anchors.towardsMiddle)).y
        + (searchBound (⟨0, 0, 100, 100, 1⟩ : Canvas ℚ) Sides.N
          ((transformWidthHeight ⟨1 / 10, true, false, false⟩ ⟨0, 0, 10, 10⟩
              ⟨0, 0, 100, 100, 1⟩).1 * offsetMultiplierOf Anchors.towardsMiddle)
          ((transformWidthHeight ⟨1 / 10, true, false, false⟩ ⟨0, 0, 10, 10⟩
              ⟨0, 0, 100, 100, 1⟩).2.1 * offsetMultiplierOf Anchors.towardsMiddle)).height
      = (0 : ℚ) + 100) := by
  norm_num [searchBound, transformWidthHeight, offsetMultiplierOf]

/-- C5 (amended): the shrunk search rectangle is inset by
`offsetMultiplier × marker size` on *both* sides of the crossing side's axis
(top and bottom for North/South, left and right for East/West), leaving the
other axis untouched; the multiplier is 1 for `towardsMiddle` and 1/2 for
`center`. -/
theorem claim5_searchBound {α : Type} [LinearOrderedField α]
    (cfg : Config α) (canvas : Canvas α) (nodeBounds : Bounds α)
    (anchorMode : Anchors) (side : Sides) :
    (offsetMultiplierOf Anchors.towardsMiddle = (1 : α))
      ∧ (offsetMultiplierOf Anchors.center = (1 / 2 : α))
      ∧ ((side = Sides.N ∨ side = Sides.S) →
          (searchBound canvas side
              ((transformWidthHeight cfg nodeBounds canvas).1
                * offsetMultiplierOf anchorMode)
              ((transformWidthHeight cfg nodeBounds canvas).2.1
                * offsetMultiplierOf anchorMode)).x = canvas.x
            ∧ (searchBound canvas side
              ((transformWidthHeight cfg nodeBounds canvas).1
                * offsetMultiplierOf anchorMode)
              ((transformWidthHeight cfg nodeBounds canvas).2.1
                * offsetMultiplierOf anchorMode)).x
              + (searchBound canvas side
                ((transformWidthHeight cfg nodeBounds canvas).1
                  * offsetMultiplierOf anchorMode)
                ((transformWidthHeight cfg nodeBounds canvas).2.1
                  * offsetMultiplierOf anchorMode)).width
              = canvas.x + canvas.width
            ∧ (searchBound canvas side
              ((transformWidthHeight cfg nodeBounds canvas).1
                * offsetMultiplierOf anchorMode)
              ((transformWidthHeight cfg nodeBounds canvas).2.1
                * offsetMultiplierOf anchorMode)).y
              = canvas.y + offsetMultiplierOf anchorMode
                * (transformWidthHeight cfg nodeBounds canvas).2.1
            ∧ (searchBound canvas side
              ((transformWidthHeight cfg nodeBounds canvas).1
                * offsetMultiplierOf anchorMode)
              ((transformWidthHeight cfg nodeBounds canvas).2.1
                * offsetMultiplierOf anchorMode)).y
              + (searchBound canvas side
                ((transformWidthHeight cfg nodeBounds canvas).1
                  * offsetMultiplierOf anchorMode)
                ((transformWidthHeight cfg nodeBounds canvas).2.1
                  * offsetMultiplierOf anchorMode)).height
              = canvas.y + canvas.height - offsetMultiplierOf anchorMode
                * (transformWidthHeight cfg nodeBounds canvas).2.1)
      ∧ ((side = Sides.E ∨ side = Sides.W) →
          (searchBound canvas side
              ((transformWidthHeight cfg nodeBounds canvas).1
                * offsetMultiplierOf anchorMode)
              ((transformWidthHeight cfg nodeBounds canvas).2.1
                * offsetMultiplierOf anchorMode)).y = canvas.y
            ∧ (searchBound canvas side
              ((transformWidthHeight cfg nodeBounds canvas).1
                * offsetMultiplierOf anchorMode)
              ((transformWidthHeight cfg nodeBounds canvas).2.1
                * offsetMultiplierOf anchorMode)).y
              + (searchBound canvas side
                ((transformWidthHeight cfg nodeBounds canvas).1
                  * offsetMultiplierOf anchorMode)
                ((transformWidthHeight cfg nodeBounds canvas).2.1
                  * offsetMultiplierOf anchorMode)).height
              = canvas.y + canvas.height
            ∧ (searchBound canvas side
              ((transformWidthHeight cfg nodeBounds canvas).1
                * offsetMultiplierOf anchorMode)
              ((transformWidthHeight cfg nodeBounds canvas).2.1
                * offsetMultiplierOf anchorMode)).x
              = canvas.x + offsetMultiplierOf anchorMode
                * (transformWidthHeight cfg nodeBounds canvas).1
            ∧ (searchBound canvas side
              ((transformWidthHeight cfg nodeBounds canvas).1
                * offsetMultiplierOf anchorMode)
              ((transformWidthHeight cfg nodeBounds canvas).2.1
                * offsetMultiplierOf anchorMode)).x
              + (searchBound canvas side
                ((transformWidthHeight cfg nodeBounds canvas).1
                  * offsetMultiplierOf anchorMode)
                ((transformWidthHeight cfg nodeBounds canvas).2.1
                  * offsetMultiplierOf anchorMode)).width
              = canvas.x + canvas.width - offsetMultiplierOf anchorMode
                * (transformWidthHeight cfg nodeBounds canvas).1) := by
  refine ⟨rfl, rfl, ?_, ?_⟩
  · intro hside
    unfold searchBound
    rw [if_pos hside]
    refine ⟨rfl, by ring, by ring, by ring⟩
  · intro hside
    have hns : ¬(side = Sides.N ∨ side = Sides.S) := by
      rcases hside with rfl | rfl <;> simp
    unfold searchBound
    rw [if_neg hns]
    refine ⟨rfl, by ring, by ring, by ring⟩

/-- Witness for `claim5_searchBound`: concrete North crossing over `ℚ`. -/
theorem claim5_searchBound_witness :
    ((Sides.N = Sides.N ∨ Sides.N = Sides.S)
      ∧ (searchBound (⟨0, 0, 100, 100, 1⟩ : Canvas ℚ) Sides.N
          ((transformWidthHeight ⟨1 / 10, true, false, false⟩ ⟨0, 0, 10, 10⟩
              ⟨0, 0, 100, 100, 1⟩).1 * offsetMultiplierOf Anchors.towardsMiddle)
          ((transformWidthHeight ⟨1 / 10, true, false, false⟩ ⟨0, 0, 10, 10⟩
              ⟨0, 0, 100, 100, 1⟩).2.1
            * offsetMultiplierOf Anchors.towardsMiddle)).y
        = (⟨0, 0, 100, 100, 1⟩ : Canvas ℚ).y + offsetMultiplierOf Anchors.towardsMiddle
            * (transformWidthHeight ⟨1 / 10, true, false, false⟩ ⟨0, 0, 10, 10⟩
              ⟨0, 0, 100, 100, 1⟩).2.1) := by
  refine ⟨Or.inl rfl, ?_⟩
  exact ((claim5_searchBound ⟨1 / 10, true, false, false⟩
      (⟨0, 0, 100, 100, 1⟩ : Canvas ℚ) ⟨0, 0, 10, 10⟩ Anchors.towardsMiddle
      Sides.N).2.2.1 (Or.inl rfl)).2.2.1

/-- The segment walk finds nothing exactly when no position in the search
range has a segment box crossing the shrunk rectangle together with a
non-empty grace-filtered solution list. -/
theorem findAnchor_eq_none_iff (crossing : Crossing ℝ) (bound : Bounds ℝ)
    (side : Sides) (positions : List ℕ) :
    findAnchor crossing bound side positions = none ↔
      ∀ pos ∈ positions,
        ¬(isCrossingBounds (crossing.pointBounds.getD pos ⟨0, 0, 0, 0⟩) bound
          ∧ graceFilter bound
              (solveSide bound side (crossing.bezierPoints.getD pos [])) ≠ []) := by
  induction positions with
  | nil => simp [findAnchor]
  | cons p rest ih =>
    unfold findAnchor
    by_cases hc : isCrossingBounds (crossing.pointBounds.getD p ⟨0, 0, 0, 0⟩) bound
    · rw [if_pos hc]
      cases hg : graceFilter bound
          (solveSide bound side (crossing.bezierPoints.getD p [])) with
      | nil =>
        simp only [List.forall_mem_cons, ih, hg, hc]
        simp
      | cons r tl =>
        simp only [List.forall_mem_cons, hg, hc]
        simp
    · rw [if_neg hc]
      simp only [List.forall_mem_cons, ih, hc]
      simp

/-- C8: in `updateProxyPlacementPoints` every crossing point keeps its `side`
unconditionally, and keeps its original boundary point as anchor whenever no
segment in its search range both crosses the shrunk rectangle and yields a
valid grace-filtered root. -/
theorem claim8_anchor_fallback (cfg : Config ℝ) (crossings : List (Crossing ℝ))
    (canvas : Canvas ℝ) :
    (updateProxyPlacementPoints cfg crossings canvas
      = crossings.map fun crossing =>
          { crossing with crossingPoints :=
              crossing.crossingPoints.enum.map (fun ic =>
                updateCP cfg canvas Anchors.towardsMiddle
                  (offsetMultiplierOf Anchors.towardsMiddle) crossing
                  ic.1 ic.2) })
      ∧ ∀ (crossing : Crossing ℝ) (a : ℕ) (cp : CrossingPoint ℝ)
          (bound : Bounds ℝ),
          bound = searchBound canvas cp.side
              ((transformWidthHeight cfg cp.nodeBounds canvas).1
                * offsetMultiplierOf Anchors.towardsMiddle)
              ((transformWidthHeight cfg cp.nodeBounds canvas).2.1
                * offsetMultiplierOf Anchors.towardsMiddle) →
          ((updateCP cfg canvas Anchors.towardsMiddle
              (offsetMultiplierOf Anchors.towardsMiddle) crossing a cp).side
            = cp.side)
          ∧ ((∀ pos ∈ searchPositions cp.sectionNr (endSection crossing a cp)
                cp.incoming,
              ¬(isCrossingBounds (crossing.pointBounds.getD pos ⟨0, 0, 0, 0⟩)
                  bound
                ∧ graceFilter bound
                    (solveSide bound cp.side
                      (crossing.bezierPoints.getD pos [])) ≠ [])) →
            updateCP cfg canvas Anchors.towardsMiddle
                (offsetMultiplierOf Anchors.towardsMiddle) crossing a cp = cp) := by
  refine ⟨rfl, ?_⟩
  rintro crossing a cp bound rfl
  constructor
  · unfold updateCP
    cases hf : findAnchor crossing
        (searchBound canvas cp.side
          ((transformWidthHeight cfg cp.nodeBounds canvas).1
            * offsetMultiplierOf Anchors.towardsMiddle)
          ((transformWidthHeight cfg cp.nodeBounds canvas).2.1
            * offsetMultiplierOf Anchors.towardsMiddle))
        cp.side (searchPositions cp.sectionNr (endSection crossing a cp)
          cp.incoming) with
    | none => simp [hf]
    | some pt => simp [hf]
  · intro hfail
    have hnone := (findAnchor_eq_none_iff crossing _ cp.side _).2 hfail
    unfold updateCP
    dsimp only
    rw [hnone]

/-- Witness for `claim8_anchor_fallback`: a single North crossing point whose
only searchable segment box lies far from the shrunk rectangle, so the search
fails and the point is unchanged. -/
theorem claim8_anchor_fallback_witness :
    (∀ pos ∈ searchPositions
        (⟨⟨0, 0⟩, 0, Sides.N, true, 0, ⟨5, 5⟩, none, ⟨0, 0, 10, 10⟩,
          Anchors.towardsEdge⟩ : CrossingPoint ℝ).sectionNr
        (endSection
          (⟨⟨[], ⟨0, 0, 0, 0⟩, none, none⟩, [⟨200, 200, 1, 1⟩], [[]],
            [⟨⟨0, 0⟩, 0, Sides.N, true, 0, ⟨5, 5⟩, none, ⟨0, 0, 10, 10⟩,
              Anchors.towardsEdge⟩]⟩ : Crossing ℝ) 0
          ⟨⟨0, 0⟩, 0, Sides.N, true, 0, ⟨5, 5⟩, none, ⟨0, 0, 10, 10⟩,
            Anchors.towardsEdge⟩)
        true,
      ¬(isCrossingBounds
          ((⟨⟨[], ⟨0, 0, 0, 0⟩, none, none⟩, [⟨200, 200, 1, 1⟩], [[]],
            [⟨⟨0, 0⟩, 0, Sides.N, true, 0, ⟨5, 5⟩, none, ⟨0, 0, 10, 10⟩,
              Anchors.towardsEdge⟩]⟩ : Crossing ℝ).pointBounds.getD pos
            ⟨0, 0, 0, 0⟩)
          (searchBound (⟨0, 0, 100, 100, 1⟩ : Canvas ℝ) Sides.N
            ((transformWidthHeight ⟨1 / 10, true, false, false⟩ ⟨0, 0, 10, 10⟩
                ⟨0, 0, 100, 100, 1⟩).1 * offsetMultiplierOf Anchors.towardsMiddle)
            ((transformWidthHeight ⟨1 / 10, true, false, false⟩ ⟨0, 0, 10, 10⟩
                ⟨0, 0, 100, 100, 1⟩).2.1
              * offsetMultiplierOf Anchors.towardsMiddle))
        ∧ graceFilter
            (searchBound (⟨0, 0, 100, 100, 1⟩ : Canvas ℝ) Sides.N
              ((transformWidthHeight ⟨1 / 10, true, false, false⟩ ⟨0, 0, 10, 10⟩
                  ⟨0, 0, 100, 100, 1⟩).1 * offsetMultiplierOf Anchors.towardsMiddle)
              ((transformWidthHeight ⟨1 / 10, true, false, false⟩ ⟨0, 0, 10, 10⟩
                  ⟨0, 0, 100, 100, 1⟩).2.1
                * offsetMultiplierOf Anchors.towardsMiddle))
            (solveSide
              (searchBound (⟨0, 0, 100, 100, 1⟩ : Canvas ℝ) Sides.N
                ((transformWidthHeight ⟨1 / 10, true, false, false⟩ ⟨0, 0, 10, 10⟩
                    ⟨0, 0, 100, 100, 1⟩).1 * offsetMultiplierOf Anchors.towardsMiddle)
                ((transformWidthHeight ⟨1 / 10, true, false, false⟩ ⟨0, 0, 10, 10⟩
                    ⟨0, 0, 100, 100, 1⟩).2.1
                  * offsetMultiplierOf Anchors.towardsMiddle))
              Sides.N
              ((⟨⟨[], ⟨0, 0, 0, 0⟩, none, none⟩, [⟨200, 200, 1, 1⟩], [[]],
                [⟨⟨0, 0⟩, 0, Sides.N, true, 0, ⟨5, 5⟩, none, ⟨0, 0, 10, 10⟩,
                  Anchors.towardsEdge⟩]⟩ : Crossing ℝ).bezierPoints.getD pos []))
          ≠ []))
      ∧ updateCP ⟨1 / 10, true, false, false⟩ ⟨0, 0, 100, 100, 1⟩
          Anchors.towardsMiddle (offsetMultiplierOf Anchors.towardsMiddle)
          (⟨⟨[], ⟨0, 0, 0, 0⟩, none, none⟩, [⟨200, 200, 1, 1⟩], [[]],
            [⟨⟨0, 0⟩, 0, Sides.N, true, 0, ⟨5, 5⟩, none, ⟨0, 0, 10, 10⟩,
              Anchors.towardsEdge⟩]⟩ : Crossing ℝ) 0
          ⟨⟨0, 0⟩, 0, Sides.N, true, 0, ⟨5, 5⟩, none, ⟨0, 0, 10, 10⟩,
            Anchors.towardsEdge⟩
        = ⟨⟨0, 0⟩, 0, Sides.N, true, 0, ⟨5, 5⟩, none, ⟨0, 0, 10, 10⟩,
            Anchors.towardsEdge⟩ := by
  have hbound : searchBound (⟨0, 0, 100, 100, 1⟩ : Canvas ℝ) Sides.N
      ((transformWidthHeight ⟨1 / 10, true, false, false⟩ ⟨0, 0, 10, 10⟩
          ⟨0, 0, 100, 100, 1⟩).1 * offsetMultiplierOf Anchors.towardsMiddle)
      ((transformWidthHeight ⟨1 / 10, true, false, false⟩ ⟨0, 0, 10, 10⟩
          ⟨0, 0, 100, 100, 1⟩).2.1 * offsetMultiplierOf Anchors.towardsMiddle)
      = ⟨0, 10, 100, 80⟩ := by
    norm_num [searchBound, transformWidthHeight, offsetMultiplierOf]
  have hfail : ∀ pos ∈ searchPositions 0 (endSection
      (⟨⟨[], ⟨0, 0, 0, 0⟩, none, none⟩, [⟨200, 200, 1, 1⟩], [[]],
        [⟨⟨0, 0⟩, 0, Sides.N, true, 0, ⟨5, 5⟩, none, ⟨0, 0, 10, 10⟩,
          Anchors.towardsEdge⟩]⟩ : Crossing ℝ) 0
      ⟨⟨0, 0⟩, 0, Sides.N, true, 0, ⟨5, 5⟩, none, ⟨0, 0, 10, 10⟩,
        Anchors.towardsEdge⟩) true,
      ¬(isCrossingBounds
          ((⟨⟨[], ⟨0, 0, 0, 0⟩, none, none⟩, [⟨200, 200, 1, 1⟩], [[]],
            [⟨⟨0, 0⟩, 0, Sides.N, true, 0, ⟨5, 5⟩, none, ⟨0, 0, 10, 10⟩,
              Anchors.towardsEdge⟩]⟩ : Crossing ℝ).pointBounds.getD pos
            ⟨0, 0, 0, 0⟩)
          (⟨0, 10, 100, 80⟩ : Bounds ℝ)
        ∧ graceFilter (⟨0, 10, 100, 80⟩ : Bounds ℝ)
            (solveSide (⟨0, 10, 100, 80⟩ : Bounds ℝ) Sides.N
              ((⟨⟨[], ⟨0, 0, 0, 0⟩, none, none⟩, [⟨200, 200, 1, 1⟩], [[]],
                [⟨⟨0, 0⟩, 0, Sides.N, true, 0, ⟨5, 5⟩, none, ⟨0, 0, 10, 10⟩,
                  Anchors.towardsEdge⟩]⟩ : Crossing ℝ).bezierPoints.getD pos []))
          ≠ []) := by
    have hend : endSection
        (⟨⟨[], ⟨0, 0, 0, 0⟩, none, none⟩, [⟨200, 200, 1, 1⟩], [[]],
          [⟨⟨0, 0⟩, 0, Sides.N, true, 0, ⟨5, 5⟩, none, ⟨0, 0, 10, 10⟩,
            Anchors.towardsEdge⟩]⟩ : Crossing ℝ) 0
        ⟨⟨0, 0⟩, 0, Sides.N, true, 0, ⟨5, 5⟩, none, ⟨0, 0, 10, 10⟩,
          Anchors.towardsEdge⟩ = 0 := by
      simp [endSection]
    rw [hend]
    intro pos hpos
    have hpos0 : pos = 0 := by
      simpa [searchPositions, List.range'] using hpos
    subst hpos0
    rintro ⟨hcross, -⟩
    revert hcross
    norm_num [isCrossingBounds, isInBounds]
  have := ((claim8_anchor_fallback ⟨1 / 10, true, false, false⟩
      [⟨⟨[], ⟨0, 0, 0, 0⟩, none, none⟩, [⟨200, 200, 1, 1⟩], [[]],
        [⟨⟨0, 0⟩, 0, Sides.N, true, 0, ⟨5, 5⟩, none, ⟨0, 0, 10, 10⟩,
          Anchors.towardsEdge⟩]⟩] ⟨0, 0, 100, 100, 1⟩).2
      (⟨⟨[], ⟨0, 0, 0, 0⟩, none, none⟩, [⟨200, 200, 1, 1⟩], [[]],
        [⟨⟨0, 0⟩, 0, Sides.N, true, 0, ⟨5, 5⟩, none, ⟨0, 0, 10, 10⟩,
          Anchors.towardsEdge⟩]⟩ : Crossing ℝ) 0
      ⟨⟨0, 0⟩, 0, Sides.N, true, 0, ⟨5, 5⟩, none, ⟨0, 0, 10, 10⟩,
        Anchors.towardsEdge⟩ _ rfl).2
  refine ⟨?_, ?_⟩
  · rw [hbound]
    exact hfail
  · apply this
    rw [hbound]
    exact hfail

/-- C3: an edge whose route length is not `3n+1` (with `n ≥ 1`) contributes
no `Crossing` and exactly one diagnostic, and the crossings computed for the
other edges of the same update are unchanged by its presence.  (The embedding
is a total function: no branch throws.) -/
theorem claim3_malformed_route (cfg : Config ℝ) (canvas : Bounds ℝ)
    (es1 es2 : List (SKEdge ℝ)) (e : SKEdge ℝ)
    (hbad : ¬(e.routingPoints.length % 3 = 1 ∧ 4 ≤ e.routingPoints.length)) :
    (getCrossings cfg (es1 ++ e :: es2) canvas).1
        = (getCrossings cfg (es1 ++ es2) canvas).1
      ∧ (getCrossings cfg (es1 ++ e :: es2) canvas).2
        = (getCrossings cfg (es1 ++ es2) canvas).2 + 1 := by
  have hnone : crossingOfEdge cfg canvas e = none := by
    unfold crossingOfEdge
    dsimp only
    rw [if_neg hbad]
  have hstep : ∀ (e' : SKEdge ℝ) (rest : List (SKEdge ℝ)),
      getCrossings cfg (e' :: rest) canvas
        = match crossingOfEdge cfg canvas e' with
          | some c => (c :: (getCrossings cfg rest canvas).1,
              (getCrossings cfg rest canvas).2)
          | none => ((getCrossings cfg rest canvas).1,
              (getCrossings cfg rest canvas).2 + 1) := fun e' rest => rfl
  induction es1 with
  | nil =>
    simp only [List.nil_append]
    rw [hstep e es2, hnone]
    exact ⟨rfl, rfl⟩
  | cons e1 rest ih =>
    simp only [List.cons_append]
    rw [hstep e1 (rest ++ e :: es2), hstep e1 (rest ++ es2)]
    cases hres : crossingOfEdge cfg canvas e1 with
    | some c =>
      dsimp only
      exact ⟨by rw [ih.1], by rw [ih.2]⟩
    | none =>
      dsimp only
      exact ⟨by rw [ih.1], by rw [ih.2]⟩

/-- Witness for `claim3_malformed_route`: a 5-point route yields no crossing
and one diagnostic. -/
theorem claim3_malformed_route_witness :
    ¬(([(⟨0, 0⟩ : Pt ℝ), ⟨1, 1⟩, ⟨2, 2⟩, ⟨3, 3⟩, ⟨4, 4⟩].length % 3 = 1)
        ∧ 4 ≤ [(⟨0, 0⟩ : Pt ℝ), ⟨1, 1⟩, ⟨2, 2⟩, ⟨3, 3⟩, ⟨4, 4⟩].length)
      ∧ (getCrossings ⟨1 / 10, true, false, false⟩
          [⟨[(⟨0, 0⟩ : Pt ℝ), ⟨1, 1⟩, ⟨2, 2⟩, ⟨3, 3⟩, ⟨4, 4⟩], ⟨0, 0, 4, 4⟩,
            none, none⟩] ⟨0, 0, 60, 60⟩).1
        = (getCrossings ⟨1 / 10, true, false, false⟩ [] ⟨0, 0, 60, 60⟩).1
      ∧ (getCrossings ⟨1 / 10, true, false, false⟩
          [⟨[(⟨0, 0⟩ : Pt ℝ), ⟨1, 1⟩, ⟨2, 2⟩, ⟨3, 3⟩, ⟨4, 4⟩], ⟨0, 0, 4, 4⟩,
            none, none⟩] ⟨0, 0, 60, 60⟩).2
        = (getCrossings ⟨1 / 10, true, false, false⟩ [] ⟨0, 0, 60, 60⟩).2 + 1 := by
  have hbad : ¬(([(⟨0, 0⟩ : Pt ℝ), ⟨1, 1⟩, ⟨2, 2⟩, ⟨3, 3⟩, ⟨4, 4⟩].length % 3 = 1)
      ∧ 4 ≤ [(⟨0, 0⟩ : Pt ℝ), ⟨1, 1⟩, ⟨2, 2⟩, ⟨3, 3⟩, ⟨4, 4⟩].length) := by
    simp
  have := claim3_malformed_route ⟨1 / 10, true, false, false⟩ ⟨0, 0, 60, 60⟩
    [] []
    ⟨[(⟨0, 0⟩ : Pt ℝ), ⟨1, 1⟩, ⟨2, 2⟩, ⟨3, 3⟩, ⟨4, 4⟩], ⟨0, 0, 4, 4⟩, none, none⟩
    hbad
  exact ⟨hbad, this.1, this.2⟩

/-- Once the `??=` accumulator holds a depth, `filterCPs` is a plain filter
with that constant baseline depth. -/
theorem filterCPs_some {α : Type} [LinearOrderedField α] (cfg : Config α)
    (canvas : Canvas α) (root : SKNode α) (rows : List (List (SKNode α)))
    (dep : ℕ) (l : List (CrossingPoint α)) :
    filterCPs cfg canvas root rows (some dep) l
      = l.filter fun cp =>
          !overlapFromDepth rows dep (markerBox cfg canvas cp) := by
  induction l with
  | nil => rfl
  | cons cp rest ih =>
    unfold filterCPs
    dsimp only [Option.getD]
    rw [ih]
    cases hov : overlapFromDepth rows dep (markerBox cfg canvas cp) <;>
      simp [hov, List.filter_cons]

/-- `filterCPs` started without a depth uses the first point's node depth for
every point of the crossing. -/
theorem filterCPs_none {α : Type} [LinearOrderedField α] (cfg : Config α)
    (canvas : Canvas α) (root : SKNode α) (rows : List (List (SKNode α)))
    (l : List (CrossingPoint α)) :
    filterCPs cfg canvas root rows none l
      = l.filter fun cp =>
          !overlapFromDepth rows
            (cpDepth root (l.headD cp)) (markerBox cfg canvas cp) := by
  cases l with
  | nil => rfl
  | cons cp0 rest =>
    unfold filterCPs
    dsimp only [Option.getD, List.headD]
    rw [filterCPs_some]
    cases hov : overlapFromDepth rows (cpDepth root cp0)
        (markerBox cfg canvas cp0) <;>
      simp [hov, List.filter_cons]

/-- The overlap loop in index form: an overlap is found exactly when some
level from `depth` to the last level contains a node whose bounds overlap the
box. -/
theorem overlapFromDepth_iff {α : Type} [LinearOrderedField α]
    (rows : List (List (SKNode α))) (depth : ℕ) (box : Bounds α) :
    overlapFromDepth rows depth box = true ↔
      ∃ i, depth ≤ i ∧ i < rows.length ∧
        ∃ nd ∈ rows.getD i [], isInBounds box (nodeAbsBounds nd) := by
  unfold overlapFromDepth
  rw [List.any_eq_true]
  constructor
  · rintro ⟨row, hrow, hfound⟩
    obtain ⟨j, hj, hget⟩ := List.mem_iff_getElem.1 hrow
    rw [List.any_eq_true] at hfound
    obtain ⟨nd, hnd, hb⟩ := hfound
    have hlen : j < rows.length - depth := by
      simpa using hj
    refine ⟨depth + j, Nat.le_add_right _ _, by omega, nd, ?_, of_decide_eq_true hb⟩
    have hget' : (rows.drop depth)[j] = rows[depth + j] := List.getElem_drop ..
    rw [List.getD_eq_getElem rows [] (by omega : depth + j < rows.length),
      ← hget', hget]
    exact hnd
  · rintro ⟨i, hdep, hlen, nd, hnd, hb⟩
    refine ⟨rows.getD i [], ?_, ?_⟩
    · rw [List.getD_eq_getElem rows [] hlen]
      have hb : i - depth < (rows.drop depth).length := by
        simp only [List.length_drop]
        omega
      have hb2 : depth + (i - depth) < rows.length := by omega
      have hget' : (rows.drop depth)[i - depth] = rows[depth + (i - depth)] :=
        List.getElem_drop ..
      have heq2 : rows[depth + (i - depth)] = rows[i] := by
        congr 1
        omega
      rw [← heq2, ← hget']
      exact List.getElem_mem _
    · rw [List.any_eq_true]
      exact ⟨nd, hnd, decide_eq_true hb⟩

/-- C4 (amended): a crossing point survives `filterOverlappingWithNodes` iff
its marker box overlaps no node's bounds at any tree level from the baseline
depth to the deepest level, where the baseline is the deeper of the two
endpoint depths when both endpoints are graph nodes, and otherwise the depth
of the crossing's FIRST point's represented node (computed once per crossing
by the `??=` assignment and reused for all its points); a crossing whose
points are all discarded is removed entirely. -/
theorem claim4_overlap_filter {α : Type} [LinearOrderedField α]
    (cfg : Config α) (crossings : List (Crossing α)) (root : SKNode α)
    (canvas : Canvas α) :
    (filterOverlappingWithNodes cfg crossings root canvas
      = crossings.filterMap fun crossing =>
          match crossing.crossingPoints.filter (fun cp =>
            !overlapFromDepth (getTreeDepths root)
              ((baselineDepth root crossing).getD
                (cpDepth root (crossing.crossingPoints.headD cp)))
              (markerBox cfg canvas cp)) with
          | [] => none
          | kept => some { crossing with crossingPoints := kept })
      ∧ ∀ (depth : ℕ) (box : Bounds α),
          overlapFromDepth (getTreeDepths root) depth box = true ↔
            ∃ i, depth ≤ i ∧ i < (getTreeDepths root).length ∧
              ∃ nd ∈ (getTreeDepths root).getD i [],
                isInBounds box (nodeAbsBounds nd) := by
  refine ⟨?_, fun depth box => overlapFromDepth_iff _ depth box⟩
  unfold filterOverlappingWithNodes
  apply List.filterMap_congr
  intro crossing _
  cases hbase : baselineDepth root crossing with
  | some dep =>
    rw [filterCPs_some]
    simp only [hbase, Option.getD]
  | none =>
    rw [filterCPs_none]
    simp only [hbase, Option.getD]

/-- C4 (counterexample to the claim as stated): the crossing has no graph
endpoints and two points — the first represents node 2 (depth 2), the second
node 1 (depth 1), whose marker overlaps node 1's bounds at level 1.  Per the
claim the second point's baseline is its OWN node's depth 1, so it must be
discarded; the code reuses the first point's depth 2 (`??=`), finds no
overlap at level 2, and keeps both points. -/
theorem claim4_counterexample :
    ((filterOverlappingWithNodes ⟨1 / 10, true, false, false⟩
        [⟨⟨[], ⟨0, 0, 0, 0⟩, none, none⟩, [], [],
          [⟨⟨0, 0⟩, 0, Sides.N, true, 0, ⟨0, 0⟩, some ⟨2, ⟨0, 0, 5, 5⟩, none⟩,
              ⟨0, 0, 5, 5⟩, Anchors.towardsEdge⟩,
            ⟨⟨0, 0⟩, 0, Sides.N, true, 0, ⟨0, 0⟩, some ⟨1, ⟨0, 0, 5, 5⟩, none⟩,
              ⟨0, 0, 5, 5⟩, Anchors.towardsEdge⟩]⟩]
        (SKNode.mk 0 ⟨0, 0, 0, 0⟩ 500 500
          [SKNode.mk 1 ⟨0, 0, 10, 10⟩ 0 0
            [SKNode.mk 2 ⟨0, 0, 1, 1⟩ 100 100 [] []] []] [])
        (⟨0, 0, 100, 100, 1⟩ : Canvas ℚ)).map
        (fun c => c.crossingPoints.length) = [2])
      ∧ overlapFromDepth
          (getTreeDepths (SKNode.mk 0 (⟨0, 0, 0, 0⟩ : Bounds ℚ) 500 500
            [SKNode.mk 1 ⟨0, 0, 10, 10⟩ 0 0
              [SKNode.mk 2 ⟨0, 0, 1, 1⟩ 100 100 [] []] []] []))
          (cpDepth
            (SKNode.mk 0 (⟨0, 0, 0, 0⟩ : Bounds ℚ) 500 500
              [SKNode.mk 1 ⟨0, 0, 10, 10⟩ 0 0
                [SKNode.mk 2 ⟨0, 0, 1, 1⟩ 100 100 [] []] []] [])
            ⟨⟨0, 0⟩, 0, Sides.N, true, 0, ⟨0, 0⟩, some ⟨1, ⟨0, 0, 5, 5⟩, none⟩,
              ⟨0, 0, 5, 5⟩, Anchors.towardsEdge⟩)
          (markerBox ⟨1 / 10, true, false, false⟩ (⟨0, 0, 100, 100, 1⟩ : Canvas ℚ)
            ⟨⟨0, 0⟩, 0, Sides.N, true, 0, ⟨0, 0⟩, some ⟨1, ⟨0, 0, 5, 5⟩, none⟩,
              ⟨0, 0, 5, 5⟩, Anchors.towardsEdge⟩)
        = true := by
  have hrows : getTreeDepths (SKNode.mk 0 (⟨0, 0, 0, 0⟩ : Bounds ℚ) 500 500
        [SKNode.mk 1 ⟨0, 0, 10, 10⟩ 0 0
          [SKNode.mk 2 ⟨0, 0, 1, 1⟩ 100 100 [] []] []] [])
      = [[SKNode.mk 0 ⟨0, 0, 0, 0⟩ 500 500
            [SKNode.mk 1 ⟨0, 0, 10, 10⟩ 0 0
              [SKNode.mk 2 ⟨0, 0, 1, 1⟩ 100 100 [] []] []] []],
         [SKNode.mk 1 ⟨0, 0, 10, 10⟩ 0 0
            [SKNode.mk 2 ⟨0, 0, 1, 1⟩ 100 100 [] []] []],
         [SKNode.mk 2 ⟨0, 0, 1, 1⟩ 100 100 [] []]] := by
    unfold getTreeDepths
    simp [treeRows.eq_def, SKNode.childNodes]
  have hmarker : ∀ nd : Option (NodeRef ℚ), markerBox ⟨1 / 10, true, false, false⟩
        (⟨0, 0, 100, 100, 1⟩ : Canvas ℚ)
        ⟨⟨0, 0⟩, 0, Sides.N, true, 0, ⟨0, 0⟩, nd, ⟨0, 0, 5, 5⟩,
          Anchors.towardsEdge⟩
      = ⟨0, 0, 5, 5⟩ := by
    intro nd
    unfold markerBox transformWidthHeight
    norm_num
  have hdepth1 : cpDepth
        (SKNode.mk 0 (⟨0, 0, 0, 0⟩ : Bounds ℚ) 500 500
          [SKNode.mk 1 ⟨0, 0, 10, 10⟩ 0 0
            [SKNode.mk 2 ⟨0, 0, 1, 1⟩ 100 100 [] []] []] [])
        ⟨⟨0, 0⟩, 0, Sides.N, true, 0, ⟨0, 0⟩, some ⟨1, ⟨0, 0, 5, 5⟩, none⟩,
          ⟨0, 0, 5, 5⟩, Anchors.towardsEdge⟩ = 1 := by
    unfold cpDepth depthIdx
    rw [hrows]
    simp [List.findIdx_cons, SKNode.id]
  have hdepth2 : cpDepth
        (SKNode.mk 0 (⟨0, 0, 0, 0⟩ : Bounds ℚ) 500 500
          [SKNode.mk 1 ⟨0, 0, 10, 10⟩ 0 0
            [SKNode.mk 2 ⟨0, 0, 1, 1⟩ 100 100 [] []] []] [])
        ⟨⟨0, 0⟩, 0, Sides.N, true, 0, ⟨0, 0⟩, some ⟨2, ⟨0, 0, 5, 5⟩, none⟩,
          ⟨0, 0, 5, 5⟩, Anchors.towardsEdge⟩ = 2 := by
    unfold cpDepth depthIdx
    rw [hrows]
    simp [List.findIdx_cons, SKNode.id]
  have hov2 : overlapFromDepth
        [[SKNode.mk 0 (⟨0, 0, 0, 0⟩ : Bounds ℚ) 500 500
            [SKNode.mk 1 ⟨0, 0, 10, 10⟩ 0 0
              [SKNode.mk 2 ⟨0, 0, 1, 1⟩ 100 100 [] []] []] []],
         [SKNode.mk 1 ⟨0, 0, 10, 10⟩ 0 0
            [SKNode.mk 2 ⟨0, 0, 1, 1⟩ 100 100 [] []] []],
         [SKNode.mk 2 ⟨0, 0, 1, 1⟩ 100 100 [] []]] 2
        (⟨0, 0, 5, 5⟩ : Bounds ℚ) = false := by
    norm_num [overlapFromDepth, isInBounds, nodeAbsBounds, SKNode.absoluteX,
      SKNode.absoluteY, SKNode.bounds]
  have hov1 : overlapFromDepth
        [[SKNode.mk 0 (⟨0, 0, 0, 0⟩ : Bounds ℚ) 500 500
            [SKNode.mk 1 ⟨0, 0, 10, 10⟩ 0 0
              [SKNode.mk 2 ⟨0, 0, 1, 1⟩ 100 100 [] []] []] []],
         [SKNode.mk 1 ⟨0, 0, 10, 10⟩ 0 0
            [SKNode.mk 2 ⟨0, 0, 1, 1⟩ 100 100 [] []] []],
         [SKNode.mk 2 ⟨0, 0, 1, 1⟩ 100 100 [] []]] 1
        (⟨0, 0, 5, 5⟩ : Bounds ℚ) = true := by
    norm_num [overlapFromDepth, isInBounds, nodeAbsBounds, SKNode.absoluteX,
      SKNode.absoluteY, SKNode.bounds]
  refine ⟨?_, ?_⟩
  · unfold filterOverlappingWithNodes
    dsimp only
    rw [hrows]
    have hbase : baselineDepth
        (SKNode.mk 0 (⟨0, 0, 0, 0⟩ : Bounds ℚ) 500 500
          [SKNode.mk 1 ⟨0, 0, 10, 10⟩ 0 0
            [SKNode.mk 2 ⟨0, 0, 1, 1⟩ 100 100 [] []] []] [])
        ⟨⟨[], ⟨0, 0, 0, 0⟩, none, none⟩, [], [],
          [⟨⟨0, 0⟩, 0, Sides.N, true, 0, ⟨0, 0⟩, some ⟨2, ⟨0, 0, 5, 5⟩, none⟩,
              ⟨0, 0, 5, 5⟩, Anchors.towardsEdge⟩,
            ⟨⟨0, 0⟩, 0, Sides.N, true, 0, ⟨0, 0⟩, some ⟨1, ⟨0, 0, 5, 5⟩, none⟩,
              ⟨0, 0, 5, 5⟩, Anchors.towardsEdge⟩]⟩ = none := rfl
    rw [List.filterMap_cons, List.filterMap_nil, hbase, filterCPs_none]
    simp only [List.headD, List.filter_cons, List.filter_nil]
    rw [hdepth2, hmarker, hmarker, hov2]
    simp
  · simp only [hdepth1, hmarker, hrows]
    exact hov1

/-- C2 (supporting fact): the route's bounding box is `{0,0,100,100}`, which
fully contains the viewport `{0,0,60,60}`, so `isCrossingBounds` rejects
it. -/
theorem claim2_bbox_rejected :
    getBoundsFromPoints [(⟨0, 0⟩ : Pt ℝ), ⟨0, 50⟩, ⟨50, 100⟩, ⟨100, 100⟩]
        = ⟨0, 0, 100, 100⟩
      ∧ ¬ isCrossingBounds (⟨0, 0, 100, 100⟩ : Bounds ℝ) ⟨0, 0, 60, 60⟩ := by
  constructor
  · unfold getBoundsFromPoints minD maxD
    norm_num [min_def, max_def]
  · norm_num [isCrossingBounds, isInBounds]

/-- C2 (amended): for the edge with route
`[(0,0),(0,50),(50,100),(100,100)]` against the viewport `{0,0,60,60}`, the
crossing-detection pipeline yields NO crossing point at all: the edge's
bounding box fully contains the viewport, so `isCrossingBounds` rejects the
edge at selection, and the same test rejects its single segment inside
`getCrossings`, whose `Crossing` therefore carries no points either. -/
theorem claim2_zero_crossings :
    getPossibleEdges
        (SKNode.mk 0 ⟨0, 0, 0, 0⟩ 0 0 []
          [⟨[(⟨0, 0⟩ : Pt ℝ), ⟨0, 50⟩, ⟨50, 100⟩, ⟨100, 100⟩],
            ⟨0, 0, 100, 100⟩, none, none⟩])
        (⟨0, 0, 60, 60⟩ : Bounds ℝ) = []
      ∧ ((getCrossings ⟨1 / 10, true, false, false⟩
          (getPossibleEdges
            (SKNode.mk 0 ⟨0, 0, 0, 0⟩ 0 0 []
              [⟨[(⟨0, 0⟩ : Pt ℝ), ⟨0, 50⟩, ⟨50, 100⟩, ⟨100, 100⟩],
                ⟨0, 0, 100, 100⟩, none, none⟩])
            (⟨0, 0, 60, 60⟩ : Bounds ℝ))
          ⟨0, 0, 60, 60⟩).1.flatMap Crossing.crossingPoints).length = 0
      ∧ ((getCrossings ⟨1 / 10, true, false, false⟩
          [⟨[(⟨0, 0⟩ : Pt ℝ), ⟨0, 50⟩, ⟨50, 100⟩, ⟨100, 100⟩],
            ⟨0, 0, 100, 100⟩, none, none⟩]
          ⟨0, 0, 60, 60⟩).1.flatMap Crossing.crossingPoints).length = 0 := by
  have hnotcross : ¬ isCrossingBounds (⟨0, 0, 100, 100⟩ : Bounds ℝ)
      ⟨0, 0, 60, 60⟩ := by
    norm_num [isCrossingBounds, isInBounds]
  have hbb : getBoundsFromPoints
      [(⟨0, 0⟩ : Pt ℝ), ⟨0, 50⟩, ⟨50, 100⟩, ⟨100, 100⟩] = ⟨0, 0, 100, 100⟩ := by
    unfold getBoundsFromPoints minD maxD
    norm_num [min_def, max_def]
  have hedges : getPossibleEdges
      (SKNode.mk 0 ⟨0, 0, 0, 0⟩ 0 0 []
        [⟨[(⟨0, 0⟩ : Pt ℝ), ⟨0, 50⟩, ⟨50, 100⟩, ⟨100, 100⟩],
          ⟨0, 0, 100, 100⟩, none, none⟩])
      (⟨0, 0, 60, 60⟩ : Bounds ℝ) = [] := by
    unfold getPossibleEdges
    simp [getCanvasBounds, hnotcross]
  have hco : crossingOfEdge ⟨1 / 10, true, false, false⟩ ⟨0, 0, 60, 60⟩
      ⟨[(⟨0, 0⟩ : Pt ℝ), ⟨0, 50⟩, ⟨50, 100⟩, ⟨100, 100⟩],
        ⟨0, 0, 100, 100⟩, none, none⟩
      = some ⟨⟨[(⟨0, 0⟩ : Pt ℝ), ⟨0, 50⟩, ⟨50, 100⟩, ⟨100, 100⟩],
          ⟨0, 0, 100, 100⟩, none, none⟩,
        [⟨0, 0, 100, 100⟩],
        [[(⟨0, 0⟩ : Pt ℝ), ⟨0, 50⟩, ⟨50, 100⟩, ⟨100, 100⟩]], []⟩ := by
    unfold crossingOfEdge
    rw [if_pos (by norm_num)]
    have hseg : segPoints [(⟨0, 0⟩ : Pt ℝ), ⟨0, 50⟩, ⟨50, 100⟩, ⟨100, 100⟩] 0
        = [(⟨0, 0⟩ : Pt ℝ), ⟨0, 50⟩, ⟨50, 100⟩, ⟨100, 100⟩] := rfl
    have hrange : [(⟨0, 0⟩ : Pt ℝ), ⟨0, 50⟩, ⟨50, 100⟩,
        ⟨100, 100⟩].length / 3 = 1 := by norm_num
    have hcps : cPointsOfSegment (⟨0, 0, 60, 60⟩ : Bounds ℝ) ⟨0, 0, 100, 100⟩
        [(⟨0, 0⟩ : Pt ℝ), ⟨0, 50⟩, ⟨50, 100⟩, ⟨100, 100⟩] = [] := by
      unfold cPointsOfSegment
      rw [if_neg hnotcross]
    have hr1 : List.range 1 = [0] := rfl
    simp [hrange, hr1, hseg, hbb, hcps, Function.comp]
  refine ⟨hedges, ?_, ?_⟩
  · rw [hedges]
    rfl
  · have hstep : getCrossings ⟨1 / 10, true, false, false⟩
        [⟨[(⟨0, 0⟩ : Pt ℝ), ⟨0, 50⟩, ⟨50, 100⟩, ⟨100, 100⟩],
          ⟨0, 0, 100, 100⟩, none, none⟩] ⟨0, 0, 60, 60⟩
        = match crossingOfEdge ⟨1 / 10, true, false, false⟩ ⟨0, 0, 60, 60⟩
            ⟨[(⟨0, 0⟩ : Pt ℝ), ⟨0, 50⟩, ⟨50, 100⟩, ⟨100, 100⟩],
              ⟨0, 0, 100, 100⟩, none, none⟩ with
          | some c => (c :: ([] : List (Crossing ℝ)), 0)
          | none => ([], 1) := rfl
    rw [hstep, hco]
    rfl

/-- C2 (counterexample to the claim as stated): the pipeline on this scenario
does NOT produce exactly one crossing point — it produces none. -/
theorem claim2_counterexample :
    ¬(((getCrossings ⟨1 / 10, true, false, false⟩
          (getPossibleEdges
            (SKNode.mk 0 ⟨0, 0, 0, 0⟩ 0 0 []
              [⟨[(⟨0, 0⟩ : Pt ℝ), ⟨0, 50⟩, ⟨50, 100⟩, ⟨100, 100⟩],
                ⟨0, 0, 100, 100⟩, none, none⟩])
            (⟨0, 0, 60, 60⟩ : Bounds ℝ))
          ⟨0, 0, 60, 60⟩).1.flatMap Crossing.crossingPoints).length = 1) := by
  have hnotcross : ¬ isCrossingBounds (⟨0, 0, 100, 100⟩ : Bounds ℝ)
      ⟨0, 0, 60, 60⟩ := by
    norm_num [isCrossingBounds, isInBounds]
  have hedges : getPossibleEdges
      (SKNode.mk 0 ⟨0, 0, 0, 0⟩ 0 0 []
        [⟨[(⟨0, 0⟩ : Pt ℝ), ⟨0, 50⟩, ⟨50, 100⟩, ⟨100, 100⟩],
          ⟨0, 0, 100, 100⟩, none, none⟩])
      (⟨0, 0, 60, 60⟩ : Bounds ℝ) = [] := by
    unfold getPossibleEdges
    simp [getCanvasBounds, hnotcross]
  rw [hedges]
  norm_num [getCrossings]

end Klighd
